import Mathlib

/-!
Shallow embedding of the SphynxScript expression evaluator (src/evaluator.hpp)
and statement interpreter (src/src/executionengine.hpp with its helpers), for
checking the natural-language specification against the code.

Modelling conventions:
* C++ `std::string` is Lean `String`; character scans work on `List Char`.
* The source stores every runtime value as a string plus a type tag
  (`EvalResult { value, type }`); the embedding keeps that representation.
* C++ `float` arithmetic (`std::stof`, `+`, `/`, `std::fmod`, `std::floor`)
  is modelled with exact rationals (`ℚ`).  Binary-rounding of large values,
  overflow of `std::stof`/`std::stoll`, and the hex/inf/nan forms accepted by
  `strtof` are not modelled; all inputs exercised here are exact in `float`.
* `std::stof(s, &pos)` is `parseFloatQ`, returning the value and the number of
  consumed characters; `std::stoll` is `parseIntLL`.  Call sites in the source
  only apply the throwing accessors to strings those parsers accept, so the
  accessors below default to `0` instead of throwing.
* C++ exceptions become `Except String`; `Evaluator::evaluate` catches them.
* Writes to `std::cerr` (error logs) are not modelled; writes to `std::cout`
  are collected in the interpreter state's `output` field.
* Iterative scans whose index moves non-structurally take a fuel argument that
  is always called with more fuel than characters, so the exhaustion branch is
  unreachable.
-/

/-- Decidable equality for `Except`, used to evaluate the concrete checks. -/
instance {e a : Type} [DecidableEq e] [DecidableEq a] : DecidableEq (Except e a) := fun x y =>
  match x, y with
  | .ok v, .ok w => if h : v = w then .isTrue (by rw [h]) else .isFalse (by simp [h])
  | .ok _, .error _ => .isFalse (by simp)
  | .error _, .ok _ => .isFalse (by simp)
  | .error v, .error w => if h : v = w then .isTrue (by rw [h]) else .isFalse (by simp [h])

/-- C locale `isspace`: the characters matched by `\s` in the source regexes. -/
def isSpaceC (c : Char) : Bool :=
  c = ' ' ∨ c = '\t' ∨ c = '\n' ∨ c = '\x0b' ∨ c = '\x0c' ∨ c = '\r'

/-- Digit run to a natural number. -/
def digitsToNat (ds : List Char) : Nat :=
  ds.foldl (fun a c => a * 10 + (c.toNat - '0'.toNat)) 0

/-- Exact fractions with structural (kernel-computable) arithmetic, modelling
the C++ `float` values exactly.  Every `Q` built below has a positive
denominator; nothing here normalizes, and `Q.qeq` is the semantic equality
the C++ `==` on floats corresponds to. -/
structure Q where
  num : ℤ
  den : ℤ
deriving DecidableEq, Repr

/-- An integer as a fraction. -/
def Q.ofInt (n : ℤ) : Q := ⟨n, 1⟩

/-- Fraction addition. -/
def Q.add (a b : Q) : Q := ⟨a.num * b.den + b.num * a.den, a.den * b.den⟩

/-- Fraction subtraction. -/
def Q.sub (a b : Q) : Q := ⟨a.num * b.den - b.num * a.den, a.den * b.den⟩

/-- Fraction multiplication. -/
def Q.mul (a b : Q) : Q := ⟨a.num * b.num, a.den * b.den⟩

/-- Fraction division, keeping the denominator positive. -/
def Q.div (a b : Q) : Q :=
  let n := a.num * b.den
  let d := a.den * b.num
  if d < 0 then ⟨-n, -d⟩ else ⟨n, d⟩

/-- Negation. -/
def Q.neg (a : Q) : Q := ⟨-a.num, a.den⟩

/-- Semantic equality (`==` on float values; denominators positive). -/
def Q.qeq (a b : Q) : Bool := a.num * b.den = b.num * a.den

/-- Semantic strict order (`<` on float values; denominators positive). -/
def Q.qlt (a b : Q) : Bool := a.num * b.den < b.num * a.den

/-- Semantic order (`<=` on float values; denominators positive). -/
def Q.qle (a b : Q) : Bool := a.num * b.den ≤ b.num * a.den

/-- Truncation toward zero, the C cast `(long long)` of a float value. -/
def Q.trunc (a : Q) : ℤ := a.num.tdiv a.den

/-- `std::floor` on an exact fraction. -/
def Q.floorI (a : Q) : ℤ := a.num.fdiv a.den

/-- The fraction's value in `ℚ`, for proofs only. -/
def Q.toRat (a : Q) : ℚ := (a.num : ℚ) / (a.den : ℚ)

/-- C `std::fmod`: `x - trunc(x / y) * y`. -/
def qfmod (x y : Q) : Q := Q.sub x (Q.mul (Q.ofInt (Q.trunc (Q.div x y))) y)

/-- Models `std::stof(s, &pos)` on its decimal forms: skips leading
whitespace, then an optional sign, a mantissa (digits, optional point, digits;
at least one digit), and an optional exponent.  Returns the exact value and
the number of characters consumed (`pos`), or `none` when no conversion is
possible (`std::invalid_argument` in the source). -/
def parseFloatQ (s : List Char) : Option (Q × Nat) :=
  let ws := s.takeWhile isSpaceC
  let r1 := s.drop ws.length
  let (neg, signLen, r2) :=
    match r1 with
    | '+' :: t => (false, 1, t)
    | '-' :: t => (true, 1, t)
    | t => (false, 0, t)
  let d1 := r2.takeWhile Char.isDigit
  let r3 := r2.drop d1.length
  let (dotLen, d2, r4) :=
    match r3 with
    | '.' :: t => (1, t.takeWhile Char.isDigit, t.drop (t.takeWhile Char.isDigit).length)
    | t => (0, ([] : List Char), t)
  if d1.length + d2.length = 0 then none
  else
    let mantNum : ℤ := (digitsToNat d1 * 10 ^ d2.length + digitsToNat d2 : ℕ)
    let mantDen : ℤ := ((10 : ℕ) ^ d2.length : ℕ)
    let (expLen, expNeg, expMag) :=
      match r4 with
      | 'e' :: t | 'E' :: t =>
        let (esgn, esLen, t2) :=
          match t with
          | '+' :: u => (false, 1, u)
          | '-' :: u => (true, 1, u)
          | u => (false, 0, u)
        let ed := t2.takeWhile Char.isDigit
        if ed.length = 0 then (0, false, 0)
        else (1 + esLen + ed.length, esgn, digitsToNat ed)
      | _ => (0, false, 0)
    let scaled : Q :=
      if expNeg then ⟨mantNum, mantDen * ((10 : ℕ) ^ expMag : ℕ)⟩
      else ⟨mantNum * ((10 : ℕ) ^ expMag : ℕ), mantDen⟩
    some (if neg then Q.neg scaled else scaled,
          ws.length + signLen + d1.length + dotLen + d2.length + expLen)

/-- Models `std::stoll`: skips whitespace, optional sign, then a nonempty
digit run; trailing characters are ignored. -/
def parseIntLL (s : List Char) : Option ℤ :=
  let r1 := s.drop (s.takeWhile isSpaceC).length
  let (sgn, r2) :=
    match r1 with
    | '+' :: t => ((1 : ℤ), t)
    | '-' :: t => ((-1 : ℤ), t)
    | t => ((1 : ℤ), t)
  let ds := r2.takeWhile Char.isDigit
  if ds.length = 0 then none else some (sgn * (digitsToNat ds : ℤ))

/-- Left-pad with zeros to six characters. -/
def padSix (n : Nat) : String :=
  let s := toString n
  String.mk (List.replicate (6 - s.length) '0') ++ s

/-- `std::to_string` on a nonnegative float value: fixed six decimals
(rounding of a half at the sixth decimal is modelled as half-up). -/
def floatToStringNN (q : Q) : String :=
  let n : ℤ := Q.floorI (Q.add (Q.mul q (Q.ofInt 1000000)) ⟨1, 2⟩)
  toString (n.toNat / 1000000) ++ "." ++ padSix (n.toNat % 1000000)

/-- `std::to_string(float)`: six fixed decimals, sign first. -/
def floatToString (q : Q) : String :=
  if Q.qlt q (Q.ofInt 0) then "-" ++ floatToStringNN (Q.neg q) else floatToStringNN q

/-- `EvalResult` of src/evaluator.hpp: a value string plus a type tag
("int", "float", "bool", "string", "error", or the defaults). -/
structure EvalResult where
  value : String
  type : String
deriving DecidableEq, Repr

/-- `EvalResult::asFloat` (`std::stof(value)`); call sites only reach it on
parsable values, so failure defaults to `0` instead of throwing. -/
def EvalResult.asFloat (r : EvalResult) : Q :=
  ((parseFloatQ r.value.toList).map Prod.fst).getD (Q.ofInt 0)

/-- `EvalResult::asInt` (`std::stoll(value)`), same convention. -/
def EvalResult.asInt (r : EvalResult) : ℤ :=
  (parseIntLL r.value.toList).getD 0

/-- `EvalResult::asBool`. -/
def EvalResult.asBool (r : EvalResult) : Bool := r.value = "true"

/-- `EvalResult::asString`: strips the surrounding quotes of a string value. -/
def EvalResult.asString (r : EvalResult) : String :=
  if r.type = "string" ∧ 2 ≤ r.value.length then
    String.mk (r.value.toList.drop 1 |>.dropLast)
  else r.value

/-- `Evaluator::isBool`. -/
def isBoolTok (s : String) : Bool := s = "true" ∨ s = "false"

/-- `Evaluator::isString`: at least two characters, quote first and last. -/
def isStringTok (s : String) : Bool :=
  2 ≤ s.length ∧ s.toList.head? = some '"' ∧ s.toList.getLast? = some '"'

/-- `Evaluator::isNumber`: `std::stof` parses the entire string. -/
def isNumber (s : String) : Bool :=
  match parseFloatQ s.toList with
  | some (_, n) => n = s.length
  | none => false

/-- `Evaluator::getTokenType`. -/
def getTokenType (token : String) : String :=
  if isBoolTok token then "bool"
  else if isStringTok token then "string"
  else if isNumber token then
    if token.toList.contains '.' then "float" else "int"
  else "operator"

/-- `Evaluator::coerceToNumber`: the only implicit string-to-number coercion
point; a string whose unquoted content is fully numeric is retagged as int
(no decimal point) or float. -/
def coerceToNumber (result : EvalResult) : EvalResult :=
  if result.type = "string" then
    let raw := result.asString
    if isNumber raw then
      ⟨raw, if raw.toList.contains '.' then "float" else "int"⟩
    else result
  else result

/-- The character class `"(=!<>|&+-*/%"` used by the tokenizer to decide
whether a `+`/`-` follows an operator. -/
def unarySignSet : List Char := ['(', '=', '!', '<', '>', '|', '&', '+', '-', '*', '/', '%']

/-- The tokenizer's `isUnary` test on the previously emitted token
(`none` when no token has been emitted yet): the token's last character is in
`unarySignSet`, or the token is `"("`. -/
def isUnaryPos (prev : Option String) : Bool :=
  match prev with
  | none => true
  | some t => (match t.toList.getLast? with
               | some c => unarySignSet.contains c
               | none => false) || decide (t = "(")

/-- The tokenizer's full condition for folding a `+`/`-` into a signed
numeric literal: unary position and the next character is a digit or `.`. -/
def signFolds (prev : Option String) (next : Option Char) : Bool :=
  isUnaryPos prev && (match next with
                      | some c => c.isDigit || decide (c = '.')
                      | none => false)

/-- String-literal scan of `Evaluator::tokenize`: consumes up to the closing
quote, resolving backslash escapes; `none` models the unterminated-string
throw.  Returns the collected content and the rest of the input. -/
def scanStringLit : List Char → List Char → Option (List Char × List Char)
  | [], _ => none
  | '"' :: rest, acc => some (acc.reverse, rest)
  | '\\' :: d :: rest, acc => scanStringLit rest (d :: acc)
  | ['\\'], _ => none
  | c :: rest, acc => scanStringLit rest (c :: acc)

/-- `Evaluator::tokenize`, fuel-indexed (fuel exceeds the character count on
every call, so the exhaustion branch is unreachable).  `acc` holds the emitted
tokens in reverse. -/
def tokenizeFuel : Nat → List Char → List String → Except String (List String)
  | 0, _, _ => .error "Internal Error: tokenizer fuel exhausted"
  | _ + 1, [], acc => .ok acc.reverse
  | fuel + 1, c :: rest, acc =>
    if isSpaceC c then tokenizeFuel fuel rest acc
    else if ['(', ')', '*', '/', '%'].contains c then
      tokenizeFuel fuel rest (String.singleton c :: acc)
    else if c = '+' ∨ c = '-' then
      if signFolds acc.head? rest.head? then
        let run := rest.takeWhile (fun d => d.isDigit ∨ d = '.')
        tokenizeFuel fuel (rest.drop run.length) (String.mk (c :: run) :: acc)
      else tokenizeFuel fuel rest (String.singleton c :: acc)
    else if ['=', '!', '<', '>', '|', '&'].contains c then
      match c, rest with
      | '=', '=' :: rest2 => tokenizeFuel fuel rest2 ("==" :: acc)
      | '!', '=' :: rest2 => tokenizeFuel fuel rest2 ("!=" :: acc)
      | '<', '=' :: rest2 => tokenizeFuel fuel rest2 ("<=" :: acc)
      | '>', '=' :: rest2 => tokenizeFuel fuel rest2 (">=" :: acc)
      | '&', '&' :: rest2 => tokenizeFuel fuel rest2 ("&&" :: acc)
      | '|', '|' :: rest2 => tokenizeFuel fuel rest2 ("||" :: acc)
      | _, _ => tokenizeFuel fuel rest (String.singleton c :: acc)
    else if c.isDigit ∨ c = '.' then
      let run := rest.takeWhile (fun d => d.isDigit ∨ d = '.')
      tokenizeFuel fuel (rest.drop run.length) (String.mk (c :: run) :: acc)
    else if c = '"' then
      match scanStringLit rest [] with
      | none => .error "Syntax Error: Unterminated string"
      | some (content, rest2) =>
        tokenizeFuel fuel rest2 (String.mk ('"' :: content ++ ['"']) :: acc)
    else if c.isAlpha then
      let run := c :: rest.takeWhile Char.isAlpha
      let word := String.mk run
      if word = "true" ∨ word = "false" then
        tokenizeFuel fuel (rest.drop (run.length - 1)) (word :: acc)
      else .error ("Syntax Error: Unknown identifier \x27" ++ word ++ "\x27")
    else .error ("Syntax Error: Invalid character \x27" ++ String.singleton c ++ "\x27")

/-- `Evaluator::tokenize`. -/
def tokenize (s : String) : Except String (List String) :=
  tokenizeFuel (s.toList.length + 1) s.toList []

/-- The fixed precedence table; absent operators get the `std::map` default
value `0` (the source reads them through `operator[]`). -/
def precedenceOf (t : String) : Nat :=
  if t = "||" then 1
  else if t = "&&" then 2
  else if t = "==" ∨ t = "!=" then 3
  else if t = "<" ∨ t = ">" ∨ t = "<=" ∨ t = ">=" then 4
  else if t = "+" ∨ t = "-" then 5
  else if t = "*" ∨ t = "/" ∨ t = "%" then 6
  else if t = "!" then 7
  else 0

/-- Pop segment of the `)` case of Shunting-Yard: move operators to the output
until `(`; `none` models the mismatched-parentheses throw. -/
def popUntilParen : List String → List String → Option (List String × List String)
  | [], _ => none
  | "(" :: stk, out => some (out, stk)
  | op :: stk, out => popUntilParen stk (op :: out)

/-- `Evaluator::shuntingYard`, one token at a time; `out` is the output queue
in reverse, `stk` the operator stack (top first). -/
def shuntingYardAux : List String → List String → List String → Except String (List String)
  | [], out, stk =>
    if stk.contains "(" then .error "Syntax Error: Mismatched parentheses"
    else .ok ((stk.reverse ++ out).reverse)
  | t :: ts, out, stk =>
    let ty := getTokenType t
    if ty = "int" ∨ ty = "float" ∨ ty = "string" ∨ ty = "bool" then
      shuntingYardAux ts (t :: out) stk
    else if t = "(" then shuntingYardAux ts out ("(" :: stk)
    else if t = ")" then
      match popUntilParen stk out with
      | none => .error "Syntax Error: Mismatched parentheses"
      | some (out2, stk2) => shuntingYardAux ts out2 stk2
    else
      let popped := stk.takeWhile (fun top => top ≠ "(" ∧ precedenceOf t ≤ precedenceOf top)
      shuntingYardAux ts (popped.reverse ++ out) (t :: stk.drop popped.length)

/-- `Evaluator::shuntingYard`. -/
def shuntingYard (tokens : List String) : Except String (List String) :=
  shuntingYardAux tokens [] []

/-- `Evaluator::applyUnaryOp`. -/
def applyUnaryOp (operand : EvalResult) (op : String) : Except String EvalResult :=
  if op = "!" then
    if operand.type ≠ "bool" then
      .error "Type Error: Operator \x27!\x27 requires a boolean operand"
    else .ok ⟨if operand.asBool then "false" else "true", "bool"⟩
  else .error ("Internal Error: Unknown unary operator \x27" ++ op ++ "\x27")

/-- Shared result formatting at the end of `Evaluator::applyBinaryOp`:
float when the computed type is float or the value has a fractional part
(`std::floor(result) != result`), else the truncated integer. -/
def formatNumeric (result : Q) (resultType : String) : EvalResult :=
  if resultType = "float" ∨ Q.qeq (Q.ofInt (Q.floorI result)) result = false then
    ⟨floatToString result, "float"⟩
  else ⟨toString (Q.trunc result), "int"⟩

/-- The `==`/`!=` result: the comparison outcome, negated for `!=`, as a
bool `EvalResult`. -/
def eqNegate (op : String) (b : Bool) : EvalResult :=
  ⟨if (if op = "!=" then !b else b) then "true" else "false", "bool"⟩

/-- `Evaluator::applyBinaryOp`.  Note the `+` case: for two numeric operands
the source computes the sum but falls through to the fallback throw without
returning it (its inline comment claims the addition logic is elided
unchanged), so numeric addition throws the fallback Type error. -/
def applyBinaryOp (lhs rhs : EvalResult) (op : String) : Except String EvalResult :=
  if op = "&&" ∨ op = "||" then
    if lhs.type ≠ "bool" ∨ rhs.type ≠ "bool" then
      .error ("Type Error: Operator \x27" ++ op ++ "\x27 requires boolean operands")
    else
      .ok ⟨if (if op = "&&" then lhs.asBool ∧ rhs.asBool else lhs.asBool ∨ rhs.asBool)
           then "true" else "false", "bool"⟩
  else if op = "==" ∨ op = "!=" then
    -- the source computes the comparison result through this type case split,
    -- throwing on an unsupported pairing, then negates it for "!=" and returns
    if lhs.type = "string" ∧ rhs.type = "string" then
      .ok (eqNegate op (lhs.asString = rhs.asString))
    else if lhs.type = "bool" ∧ rhs.type = "bool" then
      .ok (eqNegate op (lhs.asBool = rhs.asBool))
    else if (lhs.type = "int" ∨ lhs.type = "float") ∧ (rhs.type = "int" ∨ rhs.type = "float") then
      .ok (eqNegate op (Q.qeq lhs.asFloat rhs.asFloat))
    else .error ("Type Error: Cannot compare " ++ lhs.type ++ " with " ++ rhs.type)
  else if op = "<" ∨ op = ">" ∨ op = "<=" ∨ op = ">=" then
    if ¬((lhs.type = "int" ∨ lhs.type = "float") ∧ (rhs.type = "int" ∨ rhs.type = "float")) then
      .error ("Type Error: Operator \x27" ++ op ++ "\x27 requires numerical operands")
    else
      let l := lhs.asFloat
      let r := rhs.asFloat
      let b := if op = "<" then Q.qlt l r else if op = ">" then Q.qlt r l
               else if op = "<=" then Q.qle l r else Q.qle r l
      .ok ⟨if b then "true" else "false", "bool"⟩
  else if op = "+" then
    if lhs.type = "string" ∧ rhs.type = "string" then
      .ok ⟨"\"" ++ lhs.asString ++ rhs.asString ++ "\"", "string"⟩
    else
      let L := coerceToNumber lhs
      let R := coerceToNumber rhs
      if (L.type = "int" ∨ L.type = "float") ∧ (R.type = "int" ∨ R.type = "float") then
        -- the source computes `L.asFloat() + R.asFloat()` here and then falls
        -- through, reaching the fallback throw below
        .error ("Type Error: Operator \x27+\x27 not supported for " ++ lhs.type ++ " and " ++ rhs.type)
      else if L.type = "string" ∨ R.type = "string" then
        .ok ⟨"\"" ++ (if L.type = "string" then L.asString else L.value)
                  ++ (if R.type = "string" then R.asString else R.value) ++ "\"", "string"⟩
      else
        .error ("Type Error: Operator \x27+\x27 not supported for " ++ lhs.type ++ " and " ++ rhs.type)
  else
    let L := coerceToNumber lhs
    let R := coerceToNumber rhs
    if ¬((L.type = "int" ∨ L.type = "float") ∧ (R.type = "int" ∨ R.type = "float")) then
      .error ("Type Error: Operator \x27" ++ op ++ "\x27 requires numerical operands, found "
              ++ L.type ++ " and " ++ R.type)
    else
      let l := L.asFloat
      let r := R.asFloat
      let resultType := if lhs.type = "float" ∨ rhs.type = "float" then "float" else "int"
      if op = "-" then .ok (formatNumeric (Q.sub l r) resultType)
      else if op = "*" then .ok (formatNumeric (Q.mul l r) resultType)
      else if op = "/" then
        if Q.qeq r (Q.ofInt 0) then .error "Runtime Error: Division by zero"
        else
          let result := Q.div l r
          let resultType2 :=
            if resultType = "int" ∧ Q.qeq (qfmod l r) (Q.ofInt 0) = false then "float"
            else resultType
          .ok (formatNumeric result resultType2)
      else if op = "%" then
        if lhs.type ≠ "int" ∨ rhs.type ≠ "int" then
          .error "Type Error: Operator \x27%\x27 requires integer operands"
        else if rhs.asInt = 0 then .error "Runtime Error: Modulo by zero"
        else .ok (formatNumeric (Q.ofInt (lhs.asInt.tmod rhs.asInt)) "int")
      else .error ("Internal Error: Unknown operator \x27" ++ op ++ "\x27")

/-- Loop body of `Evaluator::evaluatePostfix` over the value stack
(head = top of stack). -/
def evalRPNAux : List String → List EvalResult → Except String (List EvalResult)
  | [], stk => .ok stk
  | t :: ts, stk =>
    let ty := getTokenType t
    if ty = "int" ∨ ty = "float" ∨ ty = "bool" ∨ ty = "string" then
      evalRPNAux ts (⟨t, ty⟩ :: stk)
    else if t = "!" then
      match stk with
      | [] => .error "Syntax Error: Insufficient operands for \x27!\x27"
      | operand :: stk2 =>
        match applyUnaryOp operand t with
        | .error e => .error e
        | .ok r => evalRPNAux ts (r :: stk2)
    else
      match stk with
      | rhs :: lhs :: stk2 =>
        match applyBinaryOp lhs rhs t with
        | .error e => .error e
        | .ok r => evalRPNAux ts (r :: stk2)
      | _ => .error ("Syntax Error: Insufficient operands for \x27" ++ t ++ "\x27")

/-- `Evaluator::evaluatePostfix`: exactly one value must remain. -/
def evalRPN (rpn : List String) : Except String EvalResult :=
  match evalRPNAux rpn [] with
  | .error e => .error e
  | .ok [r] => .ok r
  | .ok _ => .error "Syntax Error: Invalid expression"

/-- The three stages of `Evaluator::evaluate` before its catch block. -/
def evaluatePipeline (expression : String) : Except String EvalResult := do
  let tokens ← tokenize expression
  let rpn ← shuntingYard tokens
  evalRPN rpn

/-- `Evaluator::evaluate`: any thrown error is caught and returned as an
`EvalResult` of type "error". -/
def evaluate (expression : String) : EvalResult :=
  match evaluatePipeline expression with
  | .ok r => r
  | .error e => ⟨e, "error"⟩

/-! ## Interpreter embedding (src/src/helpers.hpp, variable.hpp, function.hpp,
executionengine.hpp) -/

/-- Left brace character, written via its code point. -/
def lbrace : Char := Char.ofNat 123

/-- Right brace character, written via its code point. -/
def rbrace : Char := Char.ofNat 125

/-- A `\w` word character: alphanumeric or underscore. -/
def isWordChar (c : Char) : Bool := c.isAlphanum || decide (c = '_')

/-- `Variable` of variable.hpp: constructed with empty value and type
"undefined" at a scope level. -/
structure Variable where
  name : String
  value : String
  type : String
  scopeLevel : Nat
deriving DecidableEq, Repr

/-- `Variable::asString`: strips quotes of standard string literals. -/
def Variable.asString (v : Variable) : String :=
  if v.type = "string" ∧ 2 ≤ v.value.length ∧ v.value.toList.head? = some '"' then
    String.mk (v.value.toList.drop 1 |>.dropLast)
  else v.value

/-- `Function` of function.hpp: name, ordered parameters, entry line. -/
structure Func where
  name : String
  parameters : List String
  startingLine : Nat
deriving DecidableEq, Repr

/-- Lookup in the interpreter's variable store (`std::map` keyed by name). -/
def varsFind (vars : List Variable) (n : String) : Option Variable :=
  vars.find? (fun v => v.name == n)

/-- `variables.at(name).setValue(result)`. -/
def varsSet (vars : List Variable) (n : String) (r : EvalResult) : List Variable :=
  vars.map (fun v => if v.name = n then { v with value := r.value, type := r.type } else v)

/-- Lookup in the function table. -/
def funcsFind (fs : List Func) (n : String) : Option Func :=
  fs.find? (fun f => f.name == n)

/-- The reserved keywords of `isVariableName` (helpers.hpp). -/
def reservedNames : List String :=
  ["true", "false", "var", "print", "println", "input", "func", "return",
   "if", "else", "while", "import", "END", "GOTO", "end", "STYLE"]

/-- `isVariableName` (helpers.hpp): nonempty, first character a letter or
underscore, not reserved, all characters word characters. -/
def isVariableName (token : String) : Bool :=
  match token.toList with
  | [] => false
  | c :: _ =>
    if ¬c.isAlpha ∧ c ≠ '_' then false
    else if reservedNames.contains token then false
    else token.toList.all isWordChar

/-- End-of-token substitution of `findAndReplaceVariables`: a live variable
name becomes its raw stored value, an unknown variable name becomes `0`
(after a substitution error on `cerr`), everything else is kept. -/
def flushTok (vars : List Variable) (tok : List Char) : List Char :=
  if tok = [] then []
  else if isVariableName (String.mk tok) then
    match varsFind vars (String.mk tok) with
    | some v => v.value.toList
    | none => ['0']
  else tok

/-- Character loop of `findAndReplaceVariables` (helpers.hpp), fuel-indexed.
`out` is the substituted line so far in reverse; `curTok` the pending
identifier characters (collected only outside string literals). -/
def farAux : Nat → List Char → Bool → List Char → List Char → List Variable → List Char
  | 0, rest, _, curTok, out, _ => out.reverse ++ curTok ++ rest
  | _ + 1, [], _, curTok, out, vars => out.reverse ++ flushTok vars curTok
  | fuel + 1, c :: rest, inStr, curTok, out, vars =>
    if inStr ∧ c = '$' ∧ rest.head? = some lbrace then
      let nameChars := rest.tail.takeWhile (· ≠ rbrace)
      match rest.tail.drop nameChars.length with
      | [] =>
        -- unterminated interpolation: append the raw sequence, stop the scan,
        -- then the final token flush still runs
        out.reverse ++ ('$' :: lbrace :: nameChars) ++ flushTok vars curTok
      | _ :: rest2 =>
        let rep :=
          match varsFind vars (String.mk nameChars) with
          | some v => if v.type = "string" then (Variable.asString v).toList else v.value.toList
          | none => ['0']
        farAux fuel rest2 inStr curTok (rep.reverse ++ out) vars
    else
      let inStr2 := if c = '"' then !inStr else inStr
      if inStr2 then farAux fuel rest inStr2 curTok (c :: out) vars
      else if c.isAlphanum ∨ c = '_' then farAux fuel rest inStr2 (curTok ++ [c]) out vars
      else farAux fuel rest inStr2 [] (c :: (flushTok vars curTok).reverse ++ out) vars

/-- `findAndReplaceVariables` (helpers.hpp). -/
def findAndReplaceVariables (line : String) (vars : List Variable) : String :=
  String.mk (farAux (line.toList.length + 1) line.toList false [] [] vars)

/-- Does `pat` occur as a contiguous substring (`std::string::find`)? -/
def subOccurs (pat : List Char) : List Char → Bool
  | [] => pat.isPrefixOf []
  | c :: rest => pat.isPrefixOf (c :: rest) || subOccurs pat rest

/-- Scan loop of `handleInputCall` (helpers.hpp), fuel-indexed.  `doneRev` is
the processed prefix in reverse, `parity` the quote parity of that prefix.
Each bare full-word `input` outside quotes is replaced by the next line of
standard input as a quoted literal. -/
def hicAux : Nat → List Char → List Char → Bool → List String → List Char × List String
  | 0, doneRev, rest, _, stdin => (doneRev.reverse ++ rest, stdin)
  | fuel + 1, doneRev, rest, parity, stdin =>
    if "input".toList.isPrefixOf rest then
      let prevOk := match doneRev.head? with
                    | none => true
                    | some p => ¬isWordChar p
      let afterKw := rest.drop 5
      let nextOk := match afterKw.head? with
                    | none => true
                    | some n => ¬isWordChar n
      if parity || !prevOk || !nextOk then
        hicAux fuel ("input".toList.reverse ++ doneRev) afterKw parity stdin
      else
        let user := (stdin.head?.getD "").toList
        let rep := '"' :: user ++ ['"']
        hicAux fuel (rep.reverse ++ doneRev) afterKw
          (parity ^^ decide (rep.countP (fun c => c = '"') % 2 = 1)) stdin.tail
    else
      match rest with
      | [] => (doneRev.reverse, stdin)
      | c :: rest2 => hicAux fuel (c :: doneRev) rest2 (if c = '"' then !parity else parity) stdin

/-- `handleInputCall` (helpers.hpp); threads the remaining standard input. -/
def handleInputCall (line : String) (stdin : List String) : String × List String :=
  let (cs, stdin2) := hicAux (line.toList.length + 1) [] line.toList false stdin
  (String.mk cs, stdin2)

/-- `splitAndTrimArgs`: split on commas, trim spaces, drop all-space
segments. -/
def splitAndTrimArgs (s : String) : List String :=
  (s.splitOn ",").filterMap fun seg =>
    let first := seg.toList.dropWhile (fun c => c = ' ')
    if first = [] then none
    else some (String.mk (first.reverse.dropWhile (fun c => c = ' ') |>.reverse))

/-- Leading `\s*`. -/
def dropSpaces (l : List Char) : List Char := l.dropWhile isSpaceC

/-- `^\s*` and `\s*$` stripped, for the full-line keyword regexes. -/
def trimC (s : String) : String :=
  String.mk ((dropSpaces s.toList).reverse.dropWhile isSpaceC |>.reverse)

/-- First character of a line (`line[0]`, `'\0'`-safe on empty). -/
def strHead (s : String) : Option Char := s.toList.head?

/-- `styleRegex` `^\s*STYLE\s*=\s*([a-z]+)\s*$`, returning the capture. -/
def matchStyle (line : String) : Option String :=
  let l1 := dropSpaces line.toList
  if "STYLE".toList.isPrefixOf l1 then
    match dropSpaces (l1.drop 5) with
    | '=' :: l3 =>
      let l4 := dropSpaces l3
      let letters := l4.takeWhile Char.isLower
      if letters ≠ [] ∧ (l4.drop letters.length).all isSpaceC then
        some (String.mk letters)
      else none
    | _ => none
  else none

/-- `gotoRegex` `^\s*GOTO\s+(\d+)\s*$`, returning the target line. -/
def matchGoto (line : String) : Option Nat :=
  let l1 := dropSpaces line.toList
  if "GOTO".toList.isPrefixOf l1 then
    let rest := l1.drop 4
    let sp := rest.takeWhile isSpaceC
    if sp = [] then none
    else
      let l2 := rest.drop sp.length
      let ds := l2.takeWhile Char.isDigit
      if ds ≠ [] ∧ (l2.drop ds.length).all isSpaceC then some (digitsToNat ds)
      else none
  else none

/-- `returnRegex` `^\s*return\s*;?\s*$`. -/
def matchReturnStmt (line : String) : Bool :=
  let l1 := dropSpaces line.toList
  if "return".toList.isPrefixOf l1 then
    let r1 := dropSpaces (l1.drop 6)
    let r2 := match r1 with
              | ';' :: t => t
              | t => t
    (dropSpaces r2) = []
  else false

/-- Parse `([a-zA-Z_][a-zA-Z0-9_]*)` at the head of `l`; returns the name and
the rest. -/
def parseName (l : List Char) : Option (String × List Char) :=
  match l with
  | c :: _ =>
    if c.isAlpha ∨ c = '_' then
      let run := l.takeWhile isWordChar
      some (String.mk run, l.drop run.length)
    else none
  | [] => none

/-- `funcDefRegex` for the active style
(`^\s*func\s+NAME\s*\((.*?)\)\s*$` or `…\)\s*\{\s*$`), returning name and the
raw parameter text. -/
def matchFuncDef (style line : String) : Option (String × String) :=
  let l1 := dropSpaces line.toList
  if "func".toList.isPrefixOf l1 then
    let rest := l1.drop 4
    let sp := rest.takeWhile isSpaceC
    if sp = [] then none
    else
      match parseName (rest.drop sp.length) with
      | some (name, l3) =>
        match dropSpaces l3 with
        | '(' :: l5 =>
          if style = "brackets" then
            match l5.reverse.dropWhile isSpaceC with
            | b :: r2 =>
              if b = rbrace then
                match r2.dropWhile isSpaceC with
                | ')' :: r4 => some (name, String.mk r4.reverse)
                | _ => none
              else none
            | [] => none
          else
            match l5.reverse.dropWhile isSpaceC with
            | ')' :: r2 => some (name, String.mk r2.reverse)
            | _ => none
        | _ => none
      | none => none
  else none

/-- `funcCallRegex` `^\s*([a-zA-Z_][a-zA-Z0-9_]*)\s*\((.*?)\)\s*$`. -/
def matchFuncCall (line : String) : Option (String × String) :=
  match parseName (dropSpaces line.toList) with
  | some (name, l2) =>
    match dropSpaces l2 with
    | '(' :: l5 =>
      match l5.reverse.dropWhile isSpaceC with
      | ')' :: r2 => some (name, String.mk r2.reverse)
      | _ => none
    | _ => none
  | none => none

/-- `ifRegex` for the active style (`^\s*if\s+(.*)\s*$` or
`^\s*if\s+(.*)\s*\{\s*$`), returning the condition capture. -/
def matchIf (style line : String) : Option String :=
  let l1 := dropSpaces line.toList
  if "if".toList.isPrefixOf l1 then
    let rest := l1.drop 2
    let sp := rest.takeWhile isSpaceC
    if sp = [] then none
    else
      let body := rest.drop sp.length
      if style = "brackets" then
        match body.reverse.dropWhile isSpaceC with
        | b :: r2 => if b = lbrace then some (String.mk r2.reverse) else none
        | [] => none
      else some (String.mk body)
  else none

/-- `declarationRegex` `^\s*var\s+([a-zA-Z_]\w*)\s*=\s*(.*)`. -/
def matchDeclaration (line : String) : Option (String × String) :=
  let l1 := dropSpaces line.toList
  if "var".toList.isPrefixOf l1 then
    let rest := l1.drop 3
    let sp := rest.takeWhile isSpaceC
    if sp = [] then none
    else
      match parseName (rest.drop sp.length) with
      | some (name, l3) =>
        match dropSpaces l3 with
        | '=' :: l5 => some (name, String.mk (dropSpaces l5))
        | _ => none
      | none => none
  else none

/-- `assignmentRegex` `^\s*([a-zA-Z_]\w*)\s*=\s*(.*)`. -/
def matchAssignment (line : String) : Option (String × String) :=
  match parseName (dropSpaces line.toList) with
  | some (name, l2) =>
    match dropSpaces l2 with
    | '=' :: l5 => some (name, String.mk (dropSpaces l5))
    | _ => none
  | none => none

/-- `printRegex` `^\s*print\s+(.*)` (and `printlnRegex` with `println`). -/
def matchPrintKw (kw : String) (line : String) : Option String :=
  let l1 := dropSpaces line.toList
  if kw.toList.isPrefixOf l1 then
    let rest := l1.drop kw.length
    let sp := rest.takeWhile isSpaceC
    if sp = [] then none else some (String.mk (rest.drop sp.length))
  else none

/-- The block closer of the active style. -/
def closeTokOf (style : String) : String :=
  if style = "brackets" then String.singleton rbrace else "end"

/-- The first-class statement keywords that the function-call branch refuses
to treat as calls. -/
def callKeywords : List String :=
  ["input", "print", "println", "var", "if", "GOTO", "return", "END",
   "STYLE", "func", "end", "while"]

/-- The mutable state of `ExecutionEngine`.  `streamLine` is the line the
next `std::getline` on the script stream will read (the source keeps the file
position and `programCounter` as two separate pieces of state; they drift
apart on the paths that `continue` without incrementing the counter). -/
structure EngineState where
  program : List String
  style : String
  scopeLevel : Nat
  programCounter : Nat
  streamLine : Nat
  functionDepth : Nat
  returnStack : List Nat
  vars : List Variable
  functions : List Func
  ignoreLine : Bool
  stdinLines : List String
  output : String
deriving DecidableEq, Repr

/-- `removeVariablesByScope`: erase every binding whose scope level is at
least the current one. -/
def removeVariablesByScope (st : EngineState) : EngineState :=
  { st with vars := st.vars.filter (fun v => v.scopeLevel < st.scopeLevel) }

/-- `incrementScope`. -/
def incrementScope (st : EngineState) : EngineState :=
  { st with scopeLevel := st.scopeLevel + 1 }

/-- `decrementScope`: tear down the current level, or warn at level 0. -/
def decrementScope (st : EngineState) : EngineState :=
  if 0 < st.scopeLevel then
    { removeVariablesByScope st with scopeLevel := st.scopeLevel - 1 }
  else { st with output := st.output ++ "Warning: Attempted to decrement scope below 0.\n" }

/-- The `while (scopeLevel > 0) decrementScope();` loop of the call branch;
each iteration lowers the level by exactly one, so it runs `scopeLevel`
times. -/
def wipeScopes : Nat → EngineState → EngineState
  | 0, st => st
  | n + 1, st => wipeScopes n (decrementScope st)

/-- `registerFunction`: global scope only; `std::map::emplace` does not
overwrite an existing entry. -/
def registerFunction (st : EngineState) (name : String) (params : List String)
    (startingLine : Nat) : EngineState :=
  if st.scopeLevel = 0 then
    if (funcsFind st.functions name).isSome then st
    else { st with functions := ⟨name, params, startingLine⟩ :: st.functions }
  else st

/-- `jumpToLine`: a target present in the line map (lines 1..N) moves both
the stream and the counter; `none` models `std::exit(EXIT_FAILURE)`. -/
def jumpToLine (st : EngineState) (target : Nat) : Option EngineState :=
  if 1 ≤ target ∧ target ≤ st.program.length then
    some { st with programCounter := target, streamLine := target }
  else none

/-- Per-line brace counting of `findBlockEnd` in bracketed style;
`Except.error` signals that the closer bringing the nesting to zero is on
this line. -/
def braceScanLine : List Char → Nat → Except Unit Nat
  | [], nested => .ok nested
  | c :: rest, nested =>
    if c = lbrace then braceScanLine rest (nested + 1)
    else if c = rbrace then
      if nested = 1 then .error () else braceScanLine rest (nested - 1)
    else braceScanLine rest nested

/-- Scan loop of `findBlockEnd` from `cur` over the remaining lines with the
current nesting depth; `none` models the unmatched-opening error return. -/
def findBlockEndAux (style : String) : List String → Nat → Nat → Option Nat
  | [], _, _ => none
  | line :: rest, cur, nested =>
    if style = "brackets" then
      match braceScanLine line.toList nested with
      | .error _ => some cur
      | .ok nested2 => findBlockEndAux style rest (cur + 1) nested2
    else if style = "end" then
      if (matchFuncDef style line).isSome ∨ (matchIf style line).isSome then
        findBlockEndAux style rest (cur + 1) (nested + 1)
      else if trimC line = closeTokOf style then
        if nested = 1 then some cur
        else findBlockEndAux style rest (cur + 1) (nested - 1)
      else findBlockEndAux style rest (cur + 1) nested
    else findBlockEndAux style rest (cur + 1) nested

/-- `findBlockEnd(startLine)`: the line index of the closer matching the
block that starts just before `startLine`, or `none`. -/
def findBlockEnd (st : EngineState) (startLine : Nat) : Option Nat :=
  if 1 ≤ startLine ∧ startLine ≤ st.program.length then
    findBlockEndAux st.style (st.program.drop (startLine - 1)) startLine 1
  else none

/-- One iteration of the parameter-binding loop of the function-call branch.
A missing or empty trailing argument defaults to value "0" of type "number";
an argument whose evaluation errors stores `setValue({"number", "0"})`, which
by the `EvalResult` constructor order assigns value "number" and type "0" (a
slip kept faithfully); a parameter name already present in the store is
reported and not bound. -/
def bindOneParam (st : EngineState) (p : String) (args : List String) : EngineState :=
  let result : EvalResult :=
    match args.head? with
    | some a =>
      if a ≠ "" then evaluate (findAndReplaceVariables a st.vars)
      else ⟨"0", "number"⟩
    | none => ⟨"0", "number"⟩
  if (varsFind st.vars p).isNone then
    let vars1 := Variable.mk p "" "undefined" st.scopeLevel :: st.vars
    if result.type ≠ "error" then { st with vars := varsSet vars1 p result }
    else { st with vars := varsSet vars1 p ⟨"number", "0"⟩ }
  else st

/-- The parameter-binding loop. -/
def bindParams (st : EngineState) : List String → List String → EngineState
  | [], _ => st
  | p :: ps, args => bindParams (bindOneParam st p args) ps args.tail

/-- One step outcome: continue, leave `run()` normally, or
`std::exit(EXIT_FAILURE)` from an invalid jump. -/
inductive StepResult where
  | next (st : EngineState)
  | halt (st : EngineState)
  | fatal
deriving DecidableEq, Repr

/-- The per-line `programCounter++; continue;` path. -/
def advance (st : EngineState) : EngineState :=
  { st with programCounter := st.programCounter + 1, streamLine := st.streamLine + 1 }

/-- The two `STYLE =` assignments (anything other than "brackets"/"end"
leaves the style unchanged). -/
def applyStyle (cur s : String) : String :=
  if s = "brackets" then "brackets" else if s = "end" then "end" else cur

/-- The shared return path (block closer inside a function, and bare
`return`): jump to the saved address, pop it, and when leaving the outermost
call tear down the call scope. -/
def doReturnJump (st : EngineState) : StepResult :=
  match st.returnStack with
  | [] => .halt st
  | top :: restStack =>
    match jumpToLine st top with
    | none => .fatal
    | some st1 =>
      let st2 := { st1 with returnStack := restStack }
      if 0 < st2.functionDepth then
        if st2.functionDepth = 1 then
          let st3 := decrementScope st2
          .next { st3 with functionDepth := st3.functionDepth - 1 }
        else .next { st2 with functionDepth := st2.functionDepth - 1 }
      else .next st2

/-- The tail of the dispatch chain (GOTO, input substitution, `if`,
declaration, assignment, print), also reached by fall-through when a
function-call-shaped line names an unknown function. -/
def stepTail (st : EngineState) (line : String) : StepResult :=
  match matchGoto line with
  | some target =>
    match jumpToLine st target with
    | none => .fatal
    | some st2 => .next st2
  | none =>
    let inp := handleInputCall line st.stdinLines
    let line2 := inp.1
    let st := { st with stdinLines := inp.2 }
    match matchIf st.style line2 with
    | some cond =>
      let r := evaluate (findAndReplaceVariables cond st.vars)
      if r.type = "error" then .next (advance st)
      else if r.asBool = false then
        match findBlockEnd st (st.programCounter + 1) with
        | some endLine =>
          match jumpToLine st (endLine + 1) with
          | none => .fatal
          | some st2 => .next st2
        | none => .next (advance st)
      else .next (advance (incrementScope st))
    | none =>
      match matchDeclaration line2 with
      | some dec =>
        let vars1 := if (varsFind st.vars dec.1).isSome then st.vars
                     else Variable.mk dec.1 "" "undefined" st.scopeLevel :: st.vars
        let r := evaluate (findAndReplaceVariables dec.2 vars1)
        let vars2 := if r.type ≠ "error" then varsSet vars1 dec.1 r else vars1
        .next (advance { st with vars := vars2 })
      | none =>
        match matchAssignment line2 with
        | some asg =>
          if (varsFind st.vars asg.1).isNone then
            -- Name Error; `continue` without the counter increment
            .next { st with streamLine := st.streamLine + 1 }
          else
            let r := evaluate (findAndReplaceVariables asg.2 st.vars)
            let vars2 := if r.type ≠ "error" then varsSet st.vars asg.1 r else st.vars
            .next (advance { st with vars := vars2 })
        | none =>
          match (matchPrintKw "print" line2).orElse (fun _ => matchPrintKw "println" line2) with
          | some expr =>
            let r := evaluate (findAndReplaceVariables expr st.vars)
            if r.type ≠ "error" then
              .next (advance { st with output :=
                st.output ++ r.asString ++
                  (if subOccurs "println".toList line2.toList then "\n" else "") })
            else .next (advance st)
          | none => .next (advance st)

/-- One iteration of `ExecutionEngine::run`: read the line at the stream
position and dispatch it through the statement grammar in the source's
order.  (`returnExpRegex` is matched but has an empty body in the source, so
it does not appear.) -/
def step (st : EngineState) : StepResult :=
  match st.program.get? (st.streamLine - 1) with
  | none => .halt st
  | some line =>
    match matchStyle line with
    | some styleInput => .next (advance { st with style := applyStyle st.style styleInput })
    | none =>
      if strHead line = some '#' then .next (advance st)
      else if st.ignoreLine then .next (advance { st with ignoreLine := false })
      else if trimC line = "END" then
        .halt { st with output := st.output ++ "\nProgram execution terminated by END command.\n" }
      else if trimC line = "" then .next (advance st)
      else if trimC line = closeTokOf st.style then
        if st.scopeLevel = 1 ∧ 0 < st.functionDepth then doReturnJump st
        else if 0 < st.scopeLevel then .next (advance (decrementScope st))
        else .next (advance st)
      else if matchReturnStmt line then doReturnJump st
      else
        match matchFuncDef st.style line with
        | some def_ =>
          let st1 := registerFunction st def_.1 (splitAndTrimArgs def_.2) st.programCounter
          match findBlockEnd st1 (st1.programCounter + 1) with
          | some endLine =>
            match jumpToLine st1 (endLine + 1) with
            | none => .fatal
            | some st2 => .next st2
          | none => .next { st1 with streamLine := st1.streamLine + 1 }
        | none =>
          match matchFuncCall line with
          | some call =>
            if callKeywords.contains call.1 then .next (advance st)
            else
              match funcsFind st.functions call.1 with
              | some f =>
                let st1 := wipeScopes st.scopeLevel st
                let st2 := incrementScope st1
                let st3 := { st2 with functionDepth := st2.functionDepth + 1,
                                      returnStack := (st.programCounter + 1) :: st2.returnStack }
                let st4 := bindParams st3 f.parameters (splitAndTrimArgs call.2)
                match jumpToLine st4 (f.startingLine + 1) with
                | none => .fatal
                | some st5 => .next st5
              | none => stepTail st line
          | none => stepTail st line

/-- Outcome of a whole run. -/
inductive RunResult where
  | halted (st : EngineState)
  | fatal
deriving DecidableEq, Repr

/-- Iterate `step` with fuel. -/
def runFuel : Nat → EngineState → Option RunResult
  | 0, _ => none
  | n + 1, st =>
    match step st with
    | .next st2 => runFuel n st2
    | .halt st2 => some (.halted st2)
    | .fatal => some .fatal

/-- The engine's initial state on a script (style "end", counters at line 1,
empty stores). -/
def mkInit (program : List String) (stdin : List String) : EngineState :=
  ⟨program, "end", 0, 1, 1, 0, [], [], [], false, stdin, ""⟩

/-! ## Spec-side definitions for the tokenizer sign-folding claim -/

/-- Following the spec's words: the operator tokens (the operator symbols the
tokenizer emits other than the parentheses; the single-character fallbacks of
the two-character operators included). -/
def specOperatorTokens : List String :=
  ["+", "-", "*", "/", "%", "!", "==", "!=", "<", ">", "<=", ">=", "&&", "||",
   "=", "<", ">", "|", "&"]

/-- The tokens `tokenize` can emit: parentheses, operator tokens, numeric
literals (ending in a digit or `.`), string literals (ending in `"`), and the
boolean words. -/
def EmittableTok (t : String) : Prop :=
  t = "(" ∨ t = ")" ∨ t ∈ specOperatorTokens ∨
  (∃ c, t.toList.getLast? = some c ∧ (c.isDigit = true ∨ c = '.' ∨ c = '"')) ∨
  t = "true" ∨ t = "false"

/-- Following the spec's words: a `+`/`-` is folded into a signed numeric
literal exactly when the preceding token is empty (none yet), an open
parenthesis, or any operator, and the next character is a digit or `.`. -/
def specSignFolds (prev : Option String) (next : Option Char) : Prop :=
  (prev = none ∨ prev = some "(" ∨ ∃ t, prev = some t ∧ t ∈ specOperatorTokens) ∧
  (∃ c, next = some c ∧ (c.isDigit = true ∨ c = '.'))

/-- The four value type tags an `EvalResult` produced by a successful
evaluation can carry. -/
def isValueType (t : String) : Prop :=
  t = "int" ∨ t = "float" ∨ t = "bool" ∨ t = "string"

/-! ## Theorems -/

/-- The next-character side of the folding condition, in both forms. -/
theorem nextCond_iff (next : Option Char) :
    ((match next with
      | some c => c.isDigit || decide (c = '.')
      | none => false) = true) ↔
    ∃ c, next = some c ∧ (c.isDigit = true ∨ c = '.') := by
  cases next <;> simp

/-- C1: the spec says numeric `+` adds (e.g. `2 + 3 * 4` is Int 14,
`(2 + 3) * 4` is Int 20), but the numeric branch of the source's `+` case
computes the sum and then falls through to the fallback throw, so every
numeric addition is a Type error.  Tokenizing and Shunting-Yard do respect
the precedence table; the failure is exactly at the `+` application. -/
theorem c1_numeric_plus_is_type_error :
    tokenize "2 + 3 * 4" = .ok ["2", "+", "3", "*", "4"] ∧
    shuntingYard ["2", "+", "3", "*", "4"] = .ok ["2", "3", "4", "*", "+"] ∧
    applyBinaryOp ⟨"3", "int"⟩ ⟨"4", "int"⟩ "*" = .ok ⟨"12", "int"⟩ ∧
    applyBinaryOp ⟨"2", "int"⟩ ⟨"12", "int"⟩ "+" =
      .error "Type Error: Operator \x27+\x27 not supported for int and int" ∧
    evaluate "2 + 3 * 4" =
      ⟨"Type Error: Operator \x27+\x27 not supported for int and int", "error"⟩ ∧
    evaluate "(2 + 3) * 4" =
      ⟨"Type Error: Operator \x27+\x27 not supported for int and int", "error"⟩ := by
  refine ⟨rfl, rfl, ?_, ?_, ?_, ?_⟩ <;> decide

/-- C2: the string-to-number coercion itself works as specified and
non-numeric strings concatenate (`"foo" + 1` is Str "foo1"), but a coerced
numeric string then reaches the broken numeric `+` branch, so `"3" + 4` is a
Type error instead of the specified Int 7. -/
theorem c2_string_plus_coercion :
    coerceToNumber ⟨"\"3\"", "string"⟩ = ⟨"3", "int"⟩ ∧
    coerceToNumber ⟨"\"2.5\"", "string"⟩ = ⟨"2.5", "float"⟩ ∧
    coerceToNumber ⟨"\"foo\"", "string"⟩ = ⟨"\"foo\"", "string"⟩ ∧
    evaluate "\"foo\" + 1" = ⟨"\"foo1\"", "string"⟩ ∧
    evaluate "\"3\" + 4" =
      ⟨"Type Error: Operator \x27+\x27 not supported for string and int", "error"⟩ := by
  refine ⟨rfl, rfl, rfl, ?_, ?_⟩ <;> decide

/-- C3: the spec says a redeclaration is rejected with no assignment, but the
source only logs the Compilation error and then evaluates and stores anyway:
after `var x = 1; var x = 2` the binding holds 2, not the original 1 (a fresh
declaration does bind at the current depth with the evaluated value). -/
theorem c3_redeclaration_assigns_anyway :
    ∃ st1 st2,
      step (mkInit ["var x = 1", "var x = 2"] []) = .next st1 ∧
      varsFind st1.vars "x" = some ⟨"x", "1", "int", 0⟩ ∧
      runFuel 3 (mkInit ["var x = 1", "var x = 2"] []) = some (.halted st2) ∧
      varsFind st2.vars "x" = some ⟨"x", "2", "int", 0⟩ := by
  refine ⟨_, _, rfl, by decide, rfl, by decide⟩

/-- Guard chain: when a line matches none of the patterns checked before the
GOTO test, `step` dispatches to `stepTail`. -/
theorem step_eq_stepTail (st : EngineState) (line : String)
    (hline : st.program.get? (st.streamLine - 1) = some line)
    (hstyle : matchStyle line = none)
    (hcom : strHead line ≠ some '#')
    (hig : st.ignoreLine = false)
    (hend : trimC line ≠ "END")
    (hbl : trimC line ≠ "")
    (hcl : trimC line ≠ closeTokOf st.style)
    (hret : matchReturnStmt line = false)
    (hdef : matchFuncDef st.style line = none)
    (hcall : matchFuncCall line = none) :
    step st = stepTail st line := by
  simp only [step, hline, hstyle, if_neg hcom, hig, Bool.false_eq_true, if_false,
    if_neg hend, if_neg hbl, if_neg hcl, hret, hdef, hcall]

/-- C4 counterexample: in `["if false", "end"]` the condition evaluates to
Bool false and the matching closer is line 2, but the false branch does not
resume after the closer: the jump target 3 is past the listing, and the
interpreter exits the process (`step` is fatal, not a `next` state). -/
theorem c4_if_false_at_end_counterexample :
    evaluate (findAndReplaceVariables "false" []) = ⟨"false", "bool"⟩ ∧
    findBlockEnd (mkInit ["if false", "end"] []) 2 = some 2 ∧
    step (mkInit ["if false", "end"] []) = .fatal := by
  refine ⟨by decide, by decide, by decide⟩

/-- C4 amended: a false condition skips to the line after the matching closer
with scope depth and variables unchanged, provided that line exists — when
the closer is the listing's last line the jump target is invalid and the
process exits; a true condition increments the scope depth by one and falls
through; a block closer (outside the function-return case) tears the current
scope level down and continues at the next line. -/
theorem c4_conditional_skip_and_scope :
    (∀ (st : EngineState) (line cond : String) (r : EvalResult),
      st.program.get? (st.streamLine - 1) = some line →
      matchStyle line = none →
      strHead line ≠ some '#' →
      st.ignoreLine = false →
      trimC line ≠ "END" →
      trimC line ≠ "" →
      trimC line ≠ closeTokOf st.style →
      matchReturnStmt line = false →
      matchFuncDef st.style line = none →
      matchFuncCall line = none →
      matchGoto line = none →
      handleInputCall line st.stdinLines = (line, st.stdinLines) →
      matchIf st.style line = some cond →
      evaluate (findAndReplaceVariables cond st.vars) = r →
      r.type ≠ "error" →
      (r.asBool = false →
        ∀ e, findBlockEnd st (st.programCounter + 1) = some e →
          (e + 1 ≤ st.program.length →
            step st = .next { st with programCounter := e + 1, streamLine := e + 1 }) ∧
          (st.program.length < e + 1 → step st = .fatal)) ∧
      (r.asBool = true →
        step st = .next { st with scopeLevel := st.scopeLevel + 1,
                                  programCounter := st.programCounter + 1,
                                  streamLine := st.streamLine + 1 })) ∧
    (∀ (st : EngineState) (line : String),
      st.program.get? (st.streamLine - 1) = some line →
      matchStyle line = none →
      strHead line ≠ some '#' →
      st.ignoreLine = false →
      trimC line ≠ "END" →
      trimC line ≠ "" →
      trimC line = closeTokOf st.style →
      ¬(st.scopeLevel = 1 ∧ 0 < st.functionDepth) →
      0 < st.scopeLevel →
      step st = .next { st with
        scopeLevel := st.scopeLevel - 1,
        vars := st.vars.filter (fun v => v.scopeLevel < st.scopeLevel),
        programCounter := st.programCounter + 1,
        streamLine := st.streamLine + 1 }) := by
  constructor
  · intro st line cond r hline hstyle hcom hig hend hbl hcl hret hdef hcall hgoto hinp hif hev herr
    have hst : step st = stepTail st line :=
      step_eq_stepTail st line hline hstyle hcom hig hend hbl hcl hret hdef hcall
    have heta : ({ st with stdinLines := st.stdinLines } : EngineState) = st := rfl
    constructor
    · intro hfalse e hfbe
      constructor
      · intro hle
        rw [hst]
        simp only [stepTail, hgoto, hinp, heta, hif, hev, if_neg herr, hfalse, if_true, hfbe,
          jumpToLine]
        rw [if_pos (show 1 ≤ e + 1 ∧ e + 1 ≤ st.program.length from
          ⟨Nat.succ_le_succ (Nat.zero_le e), hle⟩)]
      · intro hgt
        rw [hst]
        simp only [stepTail, hgoto, hinp, heta, hif, hev, if_neg herr, hfalse, if_true, hfbe,
          jumpToLine]
        rw [if_neg]
        intro hcon
        exact absurd hcon.2 (Nat.not_le_of_lt hgt)
    · intro htrue
      rw [hst]
      simp only [stepTail, hgoto, hinp, heta, hif, hev, if_neg herr, htrue, Bool.true_eq_false,
        if_false, advance, incrementScope]
  · intro st line hline hstyle hcom hig hend hbl hcl hnotfn hpos
    simp only [step, hline, hstyle, if_neg hcom, hig, Bool.false_eq_true, if_false,
      if_neg hend, if_neg hbl, if_pos hcl, if_neg hnotfn, if_pos hpos, advance,
      decrementScope, removeVariablesByScope]

/-- Witness for the amended C4 on concrete programs: the false branch of
`["if false", "print 1", "end", "print 2"]` jumps to line 4 unchanged in
scope, the true branch of `["if true", "end"]` enters with scope depth 1,
and the closer of that block tears the scope down again. -/
theorem c4_conditional_skip_and_scope_witness :
    step (mkInit ["if false", "print 1", "end", "print 2"] []) =
      .next { mkInit ["if false", "print 1", "end", "print 2"] [] with
              programCounter := 4, streamLine := 4 } ∧
    step (mkInit ["if true", "end"] []) =
      .next { mkInit ["if true", "end"] [] with
              scopeLevel := 1, programCounter := 2, streamLine := 2 } ∧
    step { mkInit ["if true", "end"] [] with
           scopeLevel := 1, programCounter := 2, streamLine := 2 } =
      .next { mkInit ["if true", "end"] [] with
              scopeLevel := 0, programCounter := 3, streamLine := 3 } := by
  refine ⟨?_, ?_, ?_⟩
  · exact ((c4_conditional_skip_and_scope.1 (mkInit ["if false", "print 1", "end", "print 2"] [])
      "if false" "false" ⟨"false", "bool"⟩ rfl (by decide) (by decide) rfl (by decide)
      (by decide) (by decide) (by decide) (by decide) (by decide) (by decide) (by decide)
      (by decide) (by decide) (by decide)).1 (by decide) 3 (by decide)).1 (by decide)
  · exact (c4_conditional_skip_and_scope.1 (mkInit ["if true", "end"] [])
      "if true" "true" ⟨"true", "bool"⟩ rfl (by decide) (by decide) rfl (by decide)
      (by decide) (by decide) (by decide) (by decide) (by decide) (by decide) (by decide)
      (by decide) (by decide) (by decide)).2 (by decide)
  · exact c4_conditional_skip_and_scope.2 { mkInit ["if true", "end"] [] with
      scopeLevel := 1, programCounter := 2, streamLine := 2 } "end" rfl (by decide)
      (by decide) rfl (by decide) (by decide) (by decide) (by decide) (by decide)

/-- C7: a GOTO whose target is in the line map sets the program counter (and
stream) directly to that line; a target not in the map makes the process exit
(`fatal`), a harder failure than the error paths that continue with a `next`
state. -/
theorem c7_goto_semantics (st : EngineState) (line : String) (target : Nat)
    (hline : st.program.get? (st.streamLine - 1) = some line)
    (hstyle : matchStyle line = none)
    (hcom : strHead line ≠ some '#')
    (hig : st.ignoreLine = false)
    (hend : trimC line ≠ "END")
    (hbl : trimC line ≠ "")
    (hcl : trimC line ≠ closeTokOf st.style)
    (hret : matchReturnStmt line = false)
    (hdef : matchFuncDef st.style line = none)
    (hcall : matchFuncCall line = none)
    (hgoto : matchGoto line = some target) :
    (1 ≤ target ∧ target ≤ st.program.length →
      step st = .next { st with programCounter := target, streamLine := target }) ∧
    (¬(1 ≤ target ∧ target ≤ st.program.length) → step st = .fatal) := by
  have hst : step st = stepTail st line :=
    step_eq_stepTail st line hline hstyle hcom hig hend hbl hcl hret hdef hcall
  constructor
  · intro hok
    rw [hst]
    simp only [stepTail, hgoto, jumpToLine]
    rw [if_pos hok]
  · intro hbad
    rw [hst]
    simp only [stepTail, hgoto, jumpToLine]
    rw [if_neg hbad]

/-- Witness for C7: `GOTO 2` in a two-line listing jumps to line 2;
`GOTO 5` in a one-line listing exits. -/
theorem c7_goto_semantics_witness :
    step (mkInit ["GOTO 2", "print 1"] []) =
      .next { mkInit ["GOTO 2", "print 1"] [] with programCounter := 2, streamLine := 2 } ∧
    step (mkInit ["GOTO 5"] []) = .fatal := by
  constructor
  · exact (c7_goto_semantics (mkInit ["GOTO 2", "print 1"] []) "GOTO 2" 2 rfl (by decide)
      (by decide) rfl (by decide) (by decide) (by decide) (by decide) (by decide) (by decide)
      (by decide)).1 (by decide)
  · exact (c7_goto_semantics (mkInit ["GOTO 5"] []) "GOTO 5" 5 rfl (by decide)
      (by decide) rfl (by decide) (by decide) (by decide) (by decide) (by decide) (by decide)
      (by decide)).2 (by decide)

/-- Outside string literals, a run of word characters is scanned into the
pending token and substituted at the end of the line. -/
theorem farAux_wordRun (vars : List Variable) :
    ∀ (l : List Char) (fuel : Nat) (curTok out : List Char),
      (∀ c ∈ l, isWordChar c = true) → l.length < fuel →
      farAux fuel l false curTok out vars = out.reverse ++ flushTok vars (curTok ++ l) := by
  intro l
  induction l with
  | nil =>
    intro fuel curTok out _ hfuel
    match fuel, hfuel with
    | fuel + 1, _ => simp [farAux]
  | cons c l ih =>
    intro fuel curTok out hw hfuel
    match fuel, hfuel with
    | fuel + 1, hfuel =>
      have hc : isWordChar c = true := hw c (List.mem_cons_self c l)
      have hq : c ≠ '"' := by
        rintro rfl
        exact absurd hc (by decide)
      have halnum : c.isAlphanum = true ∨ c = '_' := by
        rcases Bool.or_eq_true_iff.mp hc with h | h
        · exact Or.inl h
        · exact Or.inr (by exact_mod_cast of_decide_eq_true h)
      simp only [farAux]
      rw [if_neg (by simp : ¬((false : Bool) = true ∧ c = '$' ∧ l.head? = some lbrace))]
      rw [if_neg hq]
      rw [if_neg (by simp : ¬(false : Bool) = true)]
      rw [if_pos halnum]
      rw [ih fuel (curTok ++ [c]) out (fun d hd => hw d (List.mem_cons_of_mem c hd))
        (Nat.lt_of_succ_lt_succ hfuel)]
      simp [List.append_assoc]

/-- C10: an identifier outside any string literal that is a well-formed
variable name but not a live variable is replaced by the literal text 0 by
the substitution pass, and execution proceeds with that value: assigning
`y = x` with `x` undeclared stores Int 0 into `y` (the statement is executed,
not skipped). -/
theorem c10_undeclared_identifier_becomes_zero :
    (∀ (name : String) (vars : List Variable),
      isVariableName name = true → varsFind vars name = none →
      findAndReplaceVariables name vars = "0") ∧
    (∃ st, runFuel 3 (mkInit ["var y = 5", "y = x"] []) = some (.halted st) ∧
      varsFind st.vars "y" = some ⟨"y", "0", "int", 0⟩) := by
  constructor
  · intro name vars hn hf
    have hall : name.toList.all isWordChar = true := by
      unfold isVariableName at hn
      rcases hl : name.toList with _ | ⟨c, cs⟩
      · rw [hl] at hn; simp at hn
      · rw [hl] at hn
        repeat' split at hn
        all_goals first | exact hn | simp at hn
    have hne : name.toList ≠ [] := by
      intro h
      unfold isVariableName at hn
      rw [h] at hn
      simp at hn
    unfold findAndReplaceVariables
    rw [farAux_wordRun vars name.toList _ [] []
      (fun c hc => List.all_eq_true.mp hall c hc) (Nat.lt_succ_self _)]
    have hmk : String.mk name.toList = name := rfl
    simp only [List.reverse_nil, List.nil_append, flushTok, hmk]
    rw [if_neg hne, if_pos hn, hf]
  · exact ⟨_, rfl, by decide⟩

/-- `formatNumeric` only produces the int or float tag. -/
theorem formatNumeric_type_mem (q : Q) (t : String) : isValueType (formatNumeric q t).type := by
  unfold formatNumeric isValueType
  split <;> simp

/-- A successful unary application is a bool. -/
theorem applyUnaryOp_ok_type (o : EvalResult) (op : String) (r : EvalResult)
    (h : applyUnaryOp o op = .ok r) : isValueType r.type := by
  unfold applyUnaryOp at h
  repeat' split at h
  all_goals try (injection h with h; subst h)
  all_goals first | simp at h | simp [isValueType]

/-- A successful binary application carries one of the four value tags. -/
theorem applyBinaryOp_ok_type (l r : EvalResult) (op : String) (x : EvalResult)
    (h : applyBinaryOp l r op = .ok x) : isValueType x.type := by
  unfold applyBinaryOp at h
  by_cases hA : op = "&&" ∨ op = "||"
  · rw [if_pos hA] at h
    by_cases h1 : ¬l.type = "bool" ∨ ¬r.type = "bool"
    · rw [if_pos h1] at h; simp at h
    · rw [if_neg h1] at h; injection h with h; subst h; simp [isValueType]
  · rw [if_neg hA] at h
    by_cases hB : op = "==" ∨ op = "!="
    · rw [if_pos hB] at h
      by_cases h1 : l.type = "string" ∧ r.type = "string"
      · rw [if_pos h1] at h; injection h with h; subst h; simp [isValueType, eqNegate]
      · rw [if_neg h1] at h
        by_cases h2 : l.type = "bool" ∧ r.type = "bool"
        · rw [if_pos h2] at h; injection h with h; subst h; simp [isValueType, eqNegate]
        · rw [if_neg h2] at h
          by_cases h3 : (l.type = "int" ∨ l.type = "float") ∧ (r.type = "int" ∨ r.type = "float")
          · rw [if_pos h3] at h; injection h with h; subst h; simp [isValueType, eqNegate]
          · rw [if_neg h3] at h; simp at h
    · rw [if_neg hB] at h
      by_cases hC : op = "<" ∨ op = ">" ∨ op = "<=" ∨ op = ">="
      · rw [if_pos hC] at h
        by_cases h1 : ¬((l.type = "int" ∨ l.type = "float") ∧ (r.type = "int" ∨ r.type = "float"))
        · rw [if_pos h1] at h; simp at h
        · rw [if_neg h1] at h; injection h with h; subst h; simp [isValueType]
      · rw [if_neg hC] at h
        by_cases hD : op = "+"
        · rw [if_pos hD] at h
          by_cases h1 : l.type = "string" ∧ r.type = "string"
          · rw [if_pos h1] at h; injection h with h; subst h; simp [isValueType]
          · rw [if_neg h1] at h
            by_cases h2 : ((coerceToNumber l).type = "int" ∨ (coerceToNumber l).type = "float") ∧
                ((coerceToNumber r).type = "int" ∨ (coerceToNumber r).type = "float")
            · rw [if_pos h2] at h; simp at h
            · rw [if_neg h2] at h
              by_cases h3 : (coerceToNumber l).type = "string" ∨ (coerceToNumber r).type = "string"
              · rw [if_pos h3] at h; injection h with h; subst h; simp [isValueType]
              · rw [if_neg h3] at h; simp at h
        · rw [if_neg hD] at h
          by_cases h1 : ¬(((coerceToNumber l).type = "int" ∨ (coerceToNumber l).type = "float") ∧
              ((coerceToNumber r).type = "int" ∨ (coerceToNumber r).type = "float"))
          · rw [if_pos h1] at h; simp at h
          · rw [if_neg h1] at h
            by_cases hE : op = "-"
            · rw [if_pos hE] at h; injection h with h; subst h; exact formatNumeric_type_mem _ _
            · rw [if_neg hE] at h
              by_cases hF : op = "*"
              · rw [if_pos hF] at h; injection h with h; subst h; exact formatNumeric_type_mem _ _
              · rw [if_neg hF] at h
                by_cases hG : op = "/"
                · rw [if_pos hG] at h
                  by_cases h2 : Q.qeq (coerceToNumber r).asFloat (Q.ofInt 0) = true
                  · rw [if_pos h2] at h; simp at h
                  · rw [if_neg h2] at h; injection h with h; subst h
                    exact formatNumeric_type_mem _ _
                · rw [if_neg hG] at h
                  by_cases hH : op = "%"
                  · rw [if_pos hH] at h
                    by_cases h2 : ¬l.type = "int" ∨ ¬r.type = "int"
                    · rw [if_pos h2] at h; simp at h
                    · rw [if_neg h2] at h
                      by_cases h3 : r.asInt = 0
                      · rw [if_pos h3] at h; simp at h
                      · rw [if_neg h3] at h; injection h with h; subst h
                        exact formatNumeric_type_mem _ _
                  · rw [if_neg hH] at h; simp at h

/-- The postfix value stack only ever holds the four value tags. -/
theorem evalRPNAux_types :
    ∀ (ts : List String) (stk out : List EvalResult),
      evalRPNAux ts stk = .ok out → (∀ x ∈ stk, isValueType x.type) →
      ∀ x ∈ out, isValueType x.type := by
  intro ts
  induction ts with
  | nil =>
    intro stk out h hstk
    injection h with h
    subst h
    exact hstk
  | cons t ts ih =>
    intro stk out h hstk
    simp only [evalRPNAux] at h
    by_cases hval : getTokenType t = "int" ∨ getTokenType t = "float" ∨
        getTokenType t = "bool" ∨ getTokenType t = "string"
    · rw [if_pos hval] at h
      refine ih _ _ h ?_
      intro x hx
      rcases List.mem_cons.mp hx with rfl | hx
      · exact hval
      · exact hstk x hx
    · rw [if_neg hval] at h
      by_cases hbang : t = "!"
      · subst hbang
        rw [if_pos rfl] at h
        match stk, hstk with
        | [], _ => simp at h
        | operand :: stk2, hstk =>
          have h2 : (match applyUnaryOp operand "!" with
                     | Except.error e => Except.error e
                     | Except.ok r => evalRPNAux ts (r :: stk2)) = Except.ok out := h
          cases hap : applyUnaryOp operand "!" with
          | error e => rw [hap] at h2; simp at h2
          | ok r =>
            rw [hap] at h2
            refine ih _ _ h2 ?_
            intro x hx
            rcases List.mem_cons.mp hx with rfl | hx
            · exact applyUnaryOp_ok_type _ _ _ hap
            · exact hstk x (List.mem_cons_of_mem _ hx)
      · rw [if_neg hbang] at h
        match stk, hstk with
        | [], _ => simp at h
        | [a], _ => simp at h
        | rhs :: lhs :: stk2, hstk =>
          have h2 : (match applyBinaryOp lhs rhs t with
                     | Except.error e => Except.error e
                     | Except.ok r => evalRPNAux ts (r :: stk2)) = Except.ok out := h
          cases hap : applyBinaryOp lhs rhs t with
          | error e => rw [hap] at h2; simp at h2
          | ok r =>
            rw [hap] at h2
            refine ih _ _ h2 ?_
            intro x hx
            rcases List.mem_cons.mp hx with rfl | hx
            · exact applyBinaryOp_ok_type _ _ _ _ hap
            · exact hstk x (List.mem_cons_of_mem _ (List.mem_cons_of_mem _ hx))

/-- C5: evaluation is a total function into the `EvalResult` type — every
thrown tokenizer, parser, or operator error is caught and returned as the
"error" variant wrapping its message, and a successful result always carries
one of the four value tags; when the postfix stack ends with a size other
than one, the result is exactly the Syntax error "Invalid expression". -/
theorem c5_evaluate_error_contract :
    (∀ (s e : String), evaluatePipeline s = .error e → evaluate s = ⟨e, "error"⟩) ∧
    (∀ s : String, isValueType (evaluate s).type ∨ (evaluate s).type = "error") ∧
    (∀ (s : String) (tokens rpn : List String) (stk : List EvalResult),
      tokenize s = .ok tokens → shuntingYard tokens = .ok rpn →
      evalRPNAux rpn [] = .ok stk → stk.length ≠ 1 →
      evaluate s = ⟨"Syntax Error: Invalid expression", "error"⟩) := by
  have hstage : ∀ (s : String) (tokens rpn : List String),
      tokenize s = .ok tokens → shuntingYard tokens = .ok rpn →
      evaluatePipeline s = evalRPN rpn := by
    intro s tokens rpn htok hsy
    unfold evaluatePipeline
    rw [htok]
    show Bind.bind (shuntingYard tokens) (fun rpn => evalRPN rpn) = evalRPN rpn
    rw [hsy]
    rfl
  refine ⟨?_, ?_, ?_⟩
  · intro s e h
    unfold evaluate
    rw [h]
  · intro s
    unfold evaluate
    cases hp : evaluatePipeline s with
    | error e => right; rfl
    | ok r =>
      left
      unfold evaluatePipeline at hp
      cases htok : tokenize s with
      | error e =>
        rw [htok] at hp
        exact absurd (show (Except.error e : Except String EvalResult) = Except.ok r from hp)
          (by simp)
      | ok tokens =>
        rw [htok] at hp
        have hp2 : Bind.bind (shuntingYard tokens) (fun rpn => evalRPN rpn) = Except.ok r := hp
        cases hsy : shuntingYard tokens with
        | error e =>
          rw [hsy] at hp2
          exact absurd (show (Except.error e : Except String EvalResult) = Except.ok r from hp2)
            (by simp)
        | ok rpn =>
          rw [hsy] at hp2
          have hp3 : evalRPN rpn = Except.ok r := hp2
          unfold evalRPN at hp3
          cases haux : evalRPNAux rpn [] with
          | error e =>
            rw [haux] at hp3
            exact absurd (show (Except.error e : Except String EvalResult) = Except.ok r from hp3)
              (by simp)
          | ok stk =>
            rw [haux] at hp3
            match stk, hp3 with
            | [], hp3 =>
              exact absurd (show (Except.error "Syntax Error: Invalid expression" :
                Except String EvalResult) = Except.ok r from hp3) (by simp)
            | [r2], hp3 =>
              have hr : r2 = r := by
                injection (show Except.ok r2 = Except.ok r from hp3)
              subst hr
              exact evalRPNAux_types rpn [] [r2] haux (by intro x hx; cases hx) r2
                (List.mem_singleton.mpr rfl)
            | a :: b :: t, hp3 =>
              exact absurd (show (Except.error "Syntax Error: Invalid expression" :
                Except String EvalResult) = Except.ok r from hp3) (by simp)
  · intro s tokens rpn stk htok hsy haux hlen
    have hpipe : evaluatePipeline s = .error "Syntax Error: Invalid expression" := by
      rw [hstage s tokens rpn htok hsy]
      unfold evalRPN
      rw [haux]
      match stk, hlen with
      | [], _ => rfl
      | a :: b :: t, _ => rfl
      | [a], hlen => exact absurd rfl hlen
    unfold evaluate
    rw [hpipe]

/-- Witness for C5: `1 2` tokenizes and converts fine but leaves a postfix
stack of size two, so evaluation returns the Invalid expression error. -/
theorem c5_evaluate_error_contract_witness :
    tokenize "1 2" = .ok ["1", "2"] ∧
    shuntingYard ["1", "2"] = .ok ["1", "2"] ∧
    evalRPNAux ["1", "2"] [] = .ok [⟨"2", "int"⟩, ⟨"1", "int"⟩] ∧
    evaluate "1 2" = ⟨"Syntax Error: Invalid expression", "error"⟩ := by
  refine ⟨by decide, by decide, by decide, ?_⟩
  exact c5_evaluate_error_contract.2.2 "1 2" ["1", "2"] ["1", "2"]
    [⟨"2", "int"⟩, ⟨"1", "int"⟩] (by decide) (by decide) (by decide) (by decide)

/-- Coercion leaves non-string results untouched. -/
theorem coerce_noop (v : EvalResult) (h : v.type ≠ "string") : coerceToNumber v = v := by
  unfold coerceToNumber
  rw [if_neg h]

/-- A "float"-typed numeric result is always rendered with `floatToString`. -/
theorem formatNumeric_float (q : Q) : formatNumeric q "float" = ⟨floatToString q, "float"⟩ := by
  unfold formatNumeric
  rw [if_pos (Or.inl rfl)]

/-- An exact integer fraction with the "int" tag is rendered as the truncated
integer. -/
theorem formatNumeric_exactInt (n d : ℤ) (hd : d ≠ 0) (hdvd : d ∣ n) :
    formatNumeric ⟨n, d⟩ "int" = ⟨toString (n.tdiv d), "int"⟩ := by
  obtain ⟨k, rfl⟩ := hdvd
  unfold formatNumeric
  rw [if_neg]
  · rfl
  · intro hcon
    rcases hcon with hcon | hcon
    · exact absurd hcon (by decide)
    · rw [show Q.floorI ⟨d * k, d⟩ = k from Int.mul_fdiv_cancel_left k hd] at hcon
      simp [Q.qeq, Q.ofInt, Int.mul_comm] at hcon

/-- An integral value with the "int" tag is rendered as itself. -/
theorem formatNumeric_ofInt (k : ℤ) : formatNumeric (Q.ofInt k) "int" = ⟨toString k, "int"⟩ := by
  have h := formatNumeric_exactInt k 1 (by decide) ⟨k, (one_mul k).symm⟩
  rwa [Int.tdiv_one] at h

/-- Division of two integral fractions, with the sign fix. -/
theorem div_ofInt (a b : ℤ) :
    Q.div (Q.ofInt a) (Q.ofInt b) = if b < 0 then ⟨-a, -b⟩ else ⟨a, b⟩ := by
  simp [Q.div, Q.ofInt]

/-- Truncating an integral quotient is `Int.tdiv`. -/
theorem trunc_div_ofInt (a b : ℤ) : Q.trunc (Q.div (Q.ofInt a) (Q.ofInt b)) = a.tdiv b := by
  rw [div_ofInt]
  split
  · exact Int.neg_tdiv_neg a b
  · rfl

/-- `fmod` of two integers is zero exactly when the division is exact. -/
theorem qfmod_ofInt_zero_iff (a b : ℤ) :
    (Q.qeq (qfmod (Q.ofInt a) (Q.ofInt b)) (Q.ofInt 0) = true) ↔ a = a.tdiv b * b := by
  unfold qfmod
  rw [trunc_div_ofInt]
  simp [Q.sub, Q.mul, Q.qeq, Q.ofInt, sub_eq_zero]

/-- The exact quotient of two integral fractions renders as `Int.tdiv`. -/
theorem formatNumeric_div_exact (a b : ℤ) (hb : b ≠ 0) (hdvd : b ∣ a) :
    formatNumeric (Q.div (Q.ofInt a) (Q.ofInt b)) "int" = ⟨toString (a.tdiv b), "int"⟩ := by
  rw [div_ofInt]
  split
  · rw [formatNumeric_exactInt (-a) (-b) (neg_ne_zero.mpr hb) ((neg_dvd.mpr hdvd).neg_right),
      Int.neg_tdiv_neg]
  · exact formatNumeric_exactInt a b hb hdvd

/-- C6: for two Int operands, `/` yields Int on exact division and Float
otherwise, and a zero divisor is the Division-by-zero Runtime error; `%`
requires both original operands to be Int (a Type error when either original
operand is Float), always yields Int, and a zero divisor is the
Modulo-by-zero Runtime error; concretely `10 / 4` is Float 2.5, `10 / 5` is
Int 2, and `7 % 0` is the Modulo-by-zero error. -/
theorem c6_division_and_modulo :
    (∀ (v w : EvalResult) (a b : ℤ),
      v.type = "int" → w.type = "int" →
      v.asFloat = Q.ofInt a → w.asFloat = Q.ofInt b →
      v.asInt = a → w.asInt = b →
      (b = 0 → applyBinaryOp v w "/" = .error "Runtime Error: Division by zero" ∧
               applyBinaryOp v w "%" = .error "Runtime Error: Modulo by zero") ∧
      (b ≠ 0 → b ∣ a → applyBinaryOp v w "/" = .ok ⟨toString (a.tdiv b), "int"⟩) ∧
      (b ≠ 0 → ¬b ∣ a →
        applyBinaryOp v w "/" =
          .ok ⟨floatToString (Q.div (Q.ofInt a) (Q.ofInt b)), "float"⟩) ∧
      (b ≠ 0 → applyBinaryOp v w "%" = .ok ⟨toString (a.tmod b), "int"⟩)) ∧
    (∀ v w : EvalResult,
      (v.type = "int" ∨ v.type = "float") → (w.type = "int" ∨ w.type = "float") →
      (v.type = "float" ∨ w.type = "float") →
      applyBinaryOp v w "%" =
        .error "Type Error: Operator \x27%\x27 requires integer operands") ∧
    evaluate "10 / 4" = ⟨"2.500000", "float"⟩ ∧
    evaluate "10 / 5" = ⟨"2", "int"⟩ ∧
    evaluate "7 % 0" = ⟨"Runtime Error: Modulo by zero", "error"⟩ := by
  have hcoerce : ∀ v : EvalResult, v.type = "int" ∨ v.type = "float" → coerceToNumber v = v := by
    intro v hv
    refine coerce_noop v ?_
    rcases hv with h | h <;> rw [h] <;> decide
  refine ⟨?_, ?_, by decide, by decide, by decide⟩
  · intro v w a b hv hw hva hwa hvi hwi
    have hcv : coerceToNumber v = v := hcoerce v (Or.inl hv)
    have hcw : coerceToNumber w = w := hcoerce w (Or.inl hw)
    refine ⟨?_, ?_, ?_, ?_⟩
    · rintro rfl
      constructor
      · unfold applyBinaryOp
        rw [if_neg (by decide), if_neg (by decide), if_neg (by decide), if_neg (by decide),
          hcv, hcw, if_neg (by rw [hv, hw]; decide),
          if_neg (by decide : ¬("/" = "-")), if_neg (by decide : ¬("/" = "*")),
          if_pos (rfl : "/" = "/"), hwa,
          if_pos (by decide : Q.qeq (Q.ofInt 0) (Q.ofInt 0) = true)]
      · unfold applyBinaryOp
        rw [if_neg (by decide), if_neg (by decide), if_neg (by decide), if_neg (by decide),
          hcv, hcw, if_neg (by rw [hv, hw]; decide),
          if_neg (by decide : ¬("%" = "-")), if_neg (by decide : ¬("%" = "*")),
          if_neg (by decide : ¬("%" = "/")), if_pos (rfl : "%" = "%"),
          if_neg (by rw [hv, hw]; decide), hwi, if_pos rfl]
    · intro hb hdvd
      unfold applyBinaryOp
      rw [if_neg (by decide), if_neg (by decide), if_neg (by decide), if_neg (by decide),
        hcv, hcw, if_neg (by rw [hv, hw]; decide),
        if_neg (by decide : ¬("/" = "-")), if_neg (by decide : ¬("/" = "*")),
        if_pos (rfl : "/" = "/"), hva, hwa,
        if_neg (show ¬(Q.qeq (Q.ofInt b) (Q.ofInt 0) = true) from by
          simp [Q.qeq, Q.ofInt, hb]),
        hv, hw, if_neg (by decide : ¬("int" = "float" ∨ "int" = "float"))]
      rw [if_neg]
      · show Except.ok (formatNumeric (Q.div (Q.ofInt a) (Q.ofInt b)) "int") =
          Except.ok (⟨toString (a.tdiv b), "int"⟩ : EvalResult)
        rw [formatNumeric_div_exact a b hb hdvd]
      · rintro ⟨-, hqf⟩
        have hq : Q.qeq (qfmod (Q.ofInt a) (Q.ofInt b)) (Q.ofInt 0) = true :=
          (qfmod_ofInt_zero_iff a b).mpr (Int.tdiv_mul_cancel hdvd).symm
        rw [hq] at hqf
        exact absurd hqf (by decide)
    · intro hb hdvd
      unfold applyBinaryOp
      rw [if_neg (by decide), if_neg (by decide), if_neg (by decide), if_neg (by decide),
        hcv, hcw, if_neg (by rw [hv, hw]; decide),
        if_neg (by decide : ¬("/" = "-")), if_neg (by decide : ¬("/" = "*")),
        if_pos (rfl : "/" = "/"), hva, hwa,
        if_neg (show ¬(Q.qeq (Q.ofInt b) (Q.ofInt 0) = true) from by
          simp [Q.qeq, Q.ofInt, hb]),
        hv, hw, if_neg (by decide : ¬("int" = "float" ∨ "int" = "float"))]
      rw [if_pos]
      · show Except.ok (formatNumeric (Q.div (Q.ofInt a) (Q.ofInt b)) "float") =
          Except.ok (⟨floatToString (Q.div (Q.ofInt a) (Q.ofInt b)), "float"⟩ : EvalResult)
        rw [formatNumeric_float]
      · refine ⟨rfl, ?_⟩
        have hq : ¬(Q.qeq (qfmod (Q.ofInt a) (Q.ofInt b)) (Q.ofInt 0) = true) := by
          intro h
          exact hdvd ⟨a.tdiv b, ((qfmod_ofInt_zero_iff a b).mp h).trans (mul_comm _ _)⟩
        cases hqe : Q.qeq (qfmod (Q.ofInt a) (Q.ofInt b)) (Q.ofInt 0)
        · rfl
        · exact absurd hqe hq
    · intro hb
      unfold applyBinaryOp
      rw [if_neg (by decide), if_neg (by decide), if_neg (by decide), if_neg (by decide),
        hcv, hcw, if_neg (by rw [hv, hw]; decide),
        if_neg (by decide : ¬("%" = "-")), if_neg (by decide : ¬("%" = "*")),
        if_neg (by decide : ¬("%" = "/")), if_pos (rfl : "%" = "%"),
        if_neg (by rw [hv, hw]; decide), hvi, hwi, if_neg hb, formatNumeric_ofInt]
  · intro v w hv hw hvf
    have hcv := hcoerce v hv
    have hcw := hcoerce w hw
    have hcond : ¬v.type = "int" ∨ ¬w.type = "int" := by
      rcases hvf with h | h
      · exact Or.inl (by rw [h]; decide)
      · exact Or.inr (by rw [h]; decide)
    unfold applyBinaryOp
    rw [if_neg (by decide), if_neg (by decide), if_neg (by decide), if_neg (by decide),
      hcv, hcw, if_neg (show ¬¬((v.type = "int" ∨ v.type = "float") ∧
        (w.type = "int" ∨ w.type = "float")) from fun hcon => hcon ⟨hv, hw⟩),
      if_neg (by decide : ¬("%" = "-")), if_neg (by decide : ¬("%" = "*")),
      if_neg (by decide : ¬("%" = "/")), if_pos (rfl : "%" = "%"), if_pos hcond]

/-- Witness for C6 at concrete operands: 10/4, 10/5, 7%0, and a Float
operand rejected by `%`. -/
theorem c6_division_and_modulo_witness :
    applyBinaryOp ⟨"10", "int"⟩ ⟨"4", "int"⟩ "/" = .ok ⟨"2.500000", "float"⟩ ∧
    applyBinaryOp ⟨"10", "int"⟩ ⟨"5", "int"⟩ "/" = .ok ⟨"2", "int"⟩ ∧
    applyBinaryOp ⟨"7", "int"⟩ ⟨"0", "int"⟩ "%" = .error "Runtime Error: Modulo by zero" ∧
    applyBinaryOp ⟨"1.5", "float"⟩ ⟨"2", "int"⟩ "%" =
      .error "Type Error: Operator \x27%\x27 requires integer operands" := by
  refine ⟨?_, ?_, ?_, ?_⟩
  · have h := (c6_division_and_modulo.1 ⟨"10", "int"⟩ ⟨"4", "int"⟩ 10 4 rfl rfl
      (by decide) (by decide) (by decide) (by decide)).2.2.1 (by decide) (by decide)
    exact h.trans (by decide)
  · have h := (c6_division_and_modulo.1 ⟨"10", "int"⟩ ⟨"5", "int"⟩ 10 5 rfl rfl
      (by decide) (by decide) (by decide) (by decide)).2.1 (by decide) (by decide)
    exact h.trans (by decide)
  · exact ((c6_division_and_modulo.1 ⟨"7", "int"⟩ ⟨"0", "int"⟩ 7 0 rfl rfl
      (by decide) (by decide) (by decide) (by decide)).1 rfl).2
  · exact c6_division_and_modulo.2.1 ⟨"1.5", "float"⟩ ⟨"2", "int"⟩
      (Or.inr rfl) (Or.inl rfl) (Or.inl rfl)

/-- A token-final digit, point, or quote is not in the operator character
class the tokenizer tests. -/
theorem lastCharNotOp (c : Char) (h : c.isDigit = true ∨ c = '.' ∨ c = '"') :
    unarySignSet.contains c = false := by
  rcases h with h | h | h
  · by_contra hcon
    rw [Bool.not_eq_false] at hcon
    simp [unarySignSet] at hcon
    rcases hcon with rfl | rfl | rfl | rfl | rfl | rfl | rfl | rfl | rfl | rfl | rfl | rfl <;>
      simp at h
  · subst h; decide
  · subst h; decide

/-- C8: on the tokens the tokenizer can emit, the code's condition for
folding a `+`/`-` into a signed numeric literal coincides with the spec's:
previous token empty, an open parenthesis, or any operator token, and the
next character a digit or a point. -/
theorem c8_sign_fold_condition (prev : Option String) (next : Option Char)
    (h : ∀ t, prev = some t → EmittableTok t) :
    signFolds prev next = true ↔ specSignFolds prev next := by
  have hnext := nextCond_iff next
  suffices hpos : isUnaryPos prev = true ↔
      (prev = none ∨ prev = some "(" ∨ ∃ t, prev = some t ∧ t ∈ specOperatorTokens) by
    unfold signFolds specSignFolds
    rw [Bool.and_eq_true, hpos, hnext]
  cases prev with
  | none => simp [isUnaryPos]
  | some t =>
    have ht := h t rfl
    unfold EmittableTok at ht
    rcases ht with rfl | rfl | hmem | hlast | rfl | rfl
    · exact ⟨fun _ => Or.inr (Or.inl rfl), fun _ => by decide⟩
    · refine ⟨fun hco => absurd hco (by decide), fun hco => ?_⟩
      rcases hco with h1 | h1 | ⟨u, hu, humem⟩
      · exact absurd h1 (by simp)
      · rw [Option.some.injEq] at h1
        exact absurd h1 (by decide)
      · rw [Option.some.injEq] at hu
        subst hu
        exact absurd humem (by decide)
    · fin_cases hmem <;>
        exact ⟨fun _ => Or.inr (Or.inr ⟨_, rfl, by decide⟩), fun _ => by decide⟩
    · obtain ⟨c, hc, hcd⟩ := hlast
      have ht1 : t ≠ "(" := by
        rintro rfl
        rw [show ("(" : String).toList.getLast? = some '(' from rfl] at hc
        rw [Option.some.injEq] at hc
        subst hc
        rcases hcd with h1 | h1 | h1 <;> simp at h1
      have ht3 : t ∉ specOperatorTokens := by
        intro hmem
        fin_cases hmem <;>
          (injection hc with hc; subst hc; rcases hcd with h1 | h1 | h1 <;>
            exact absurd h1 (by decide))
      have hfalse : isUnaryPos (some t) = false := by
        show ((match t.toList.getLast? with
               | some c => unarySignSet.contains c
               | none => false) || decide (t = "(")) = false
        rw [hc]
        show (unarySignSet.contains c || decide (t = "(")) = false
        rw [lastCharNotOp c hcd]
        simp [ht1]
      constructor
      · intro hco
        rw [hfalse] at hco
        exact absurd hco (by decide)
      · intro hco
        rcases hco with h1 | h1 | ⟨u, hu, humem⟩
        · exact absurd h1 (by simp)
        · rw [Option.some.injEq] at h1
          exact absurd h1 ht1
        · rw [Option.some.injEq] at hu
          subst hu
          exact absurd humem ht3
    · refine ⟨fun hco => absurd hco (by decide), fun hco => ?_⟩
      rcases hco with h1 | h1 | ⟨u, hu, humem⟩
      · exact absurd h1 (by simp)
      · rw [Option.some.injEq] at h1
        exact absurd h1 (by decide)
      · rw [Option.some.injEq] at hu
        subst hu
        exact absurd humem (by decide)
    · refine ⟨fun hco => absurd hco (by decide), fun hco => ?_⟩
      rcases hco with h1 | h1 | ⟨u, hu, humem⟩
      · exact absurd h1 (by simp)
      · rw [Option.some.injEq] at h1
        exact absurd h1 (by decide)
      · rw [Option.some.injEq] at hu
        subst hu
        exact absurd humem (by decide)

/-- Witness for C8: after `"("` a `+` before a digit folds, after the token
`"2"` it does not, and the folding drives `tokenize` itself. -/
theorem c8_sign_fold_condition_witness :
    (signFolds (some "(") (some '3') = true ↔ specSignFolds (some "(") (some '3')) ∧
    (signFolds (some "2") (some '3') = true ↔ specSignFolds (some "2") (some '3')) ∧
    signFolds (some "(") (some '3') = true ∧
    signFolds (some "2") (some '3') = false ∧
    tokenize "(+3)" = .ok ["(", "+3", ")"] ∧
    tokenize "2+3" = .ok ["2", "+", "3"] := by
  refine ⟨?_, ?_, by decide, by decide, by decide, by decide⟩
  · exact c8_sign_fold_condition (some "(") (some '3')
      (fun t ht => by injection ht with ht; subst ht; exact Or.inl rfl)
  · exact c8_sign_fold_condition (some "2") (some '3')
      (fun t ht => by
        injection ht with ht
        subst ht
        exact Or.inr (Or.inr (Or.inr (Or.inl ⟨'2', rfl, Or.inl rfl⟩))))

/-- Setting a freshly emplaced parameter touches only the new entry. -/
theorem varsSet_absent_cons (vars : List Variable) (p : String) (r : EvalResult) (scope : Nat)
    (h : varsFind vars p = none) :
    varsSet (Variable.mk p "" "undefined" scope :: vars) p r =
      Variable.mk p r.value r.type scope :: vars := by
  unfold varsSet
  rw [List.map_cons, if_pos rfl]
  have habs : ∀ v ∈ vars, ¬(v.name = p) := by
    intro v hv hvp
    have hne := List.find?_eq_none.mp h v hv
    rw [hvp] at hne
    simp at hne
  have hmap : vars.map (fun v => if v.name = p then { v with value := r.value, type := r.type }
      else v) = vars.map id :=
    List.map_congr_left (fun v hv => by rw [if_neg (habs v hv)]; rfl)
  rw [hmap, List.map_id]

/-- One binding step only rewrites the variable store: old entries survive
untouched and any new entry sits at the current scope level. -/
theorem bindOneParam_vars (st : EngineState) (p : String) (args : List String) :
    ∃ vs, bindOneParam st p args = { st with vars := vs } ∧
      (∀ v ∈ vs, v ∈ st.vars ∨ v.scopeLevel = st.scopeLevel) ∧
      (∀ v ∈ st.vars, v ∈ vs) := by
  unfold bindOneParam
  by_cases hfind : (varsFind st.vars p).isNone
  · rw [if_pos hfind]
    have hnone : varsFind st.vars p = none := Option.isNone_iff_eq_none.mp hfind
    split
    · simp only [varsSet_absent_cons, hnone]
      refine ⟨_, rfl, ?_, ?_⟩
      · intro v hv
        rcases List.mem_cons.mp hv with rfl | hv
        · exact Or.inr rfl
        · exact Or.inl hv
      · intro v hv
        exact List.mem_cons_of_mem _ hv
    · simp only [varsSet_absent_cons, hnone]
      refine ⟨_, rfl, ?_, ?_⟩
      · intro v hv
        rcases List.mem_cons.mp hv with rfl | hv
        · exact Or.inr rfl
        · exact Or.inl hv
      · intro v hv
        exact List.mem_cons_of_mem _ hv
  · rw [if_neg hfind]
    exact ⟨st.vars, rfl, fun v hv => Or.inl hv, fun v hv => hv⟩

/-- The whole binding loop only rewrites the variable store, preserving old
entries and adding entries only at the current scope level. -/
theorem bindParams_vars :
    ∀ (ps args : List String) (st : EngineState),
      ∃ vs, bindParams st ps args = { st with vars := vs } ∧
        (∀ v ∈ vs, v ∈ st.vars ∨ v.scopeLevel = st.scopeLevel) ∧
        (∀ v ∈ st.vars, v ∈ vs) := by
  intro ps
  induction ps with
  | nil => exact fun args st => ⟨st.vars, rfl, fun v hv => Or.inl hv, fun v hv => hv⟩
  | cons p ps ih =>
    intro args st
    obtain ⟨vs1, heq1, h11, h12⟩ := bindOneParam_vars st p args
    obtain ⟨vs2, heq2, h21, h22⟩ := ih args.tail { st with vars := vs1 }
    refine ⟨vs2, ?_, ?_, ?_⟩
    · show bindParams (bindOneParam st p args) ps args.tail = _
      rw [heq1, heq2]
    · intro v hv
      rcases h21 v hv with hv1 | hv1
      · exact h11 v hv1
      · exact Or.inr hv1
    · intro v hv
      exact h22 v (h12 v hv)

/-- The `while (scopeLevel > 0) decrementScope();` loop: when every stored
variable sits at or below the current level, it erases exactly the variables
of level 1 and above and lands at level 0. -/
theorem wipeScopes_spec :
    ∀ (n : Nat) (st : EngineState), st.scopeLevel = n →
      (∀ v ∈ st.vars, v.scopeLevel ≤ n) →
      wipeScopes n st =
        { st with scopeLevel := 0,
                  vars := st.vars.filter (fun v => decide (v.scopeLevel = 0)) } := by
  intro n
  induction n with
  | zero =>
    intro st h hinv
    have hvars : st.vars.filter (fun v => decide (v.scopeLevel = 0)) = st.vars :=
      List.filter_eq_self.mpr (fun v hv => by
        simp [Nat.le_zero.mp (hinv v hv)])
    show st = _
    rw [hvars, ← h]
  | succ n ih =>
    intro st h hinv
    have h0 : 0 < st.scopeLevel := by rw [h]; exact Nat.succ_pos n
    show wipeScopes n (decrementScope st) = _
    have hdec : decrementScope st =
        { st with scopeLevel := n,
                  vars := st.vars.filter (fun v => decide (v.scopeLevel < n + 1)) } := by
      unfold decrementScope removeVariablesByScope
      rw [if_pos h0, h]
      rfl
    rw [hdec]
    have hinv2 : ∀ v ∈ st.vars.filter (fun v => decide (v.scopeLevel < n + 1)),
        v.scopeLevel ≤ n := by
      intro v hv
      exact Nat.lt_succ_iff.mp (of_decide_eq_true (List.mem_filter.mp hv).2)
    have hih := ih { st with
      scopeLevel := n
      vars := st.vars.filter (fun v => decide (v.scopeLevel < n + 1)) } rfl hinv2
    rw [hih]
    have hfilters :
        (st.vars.filter (fun v => decide (v.scopeLevel < n + 1))).filter
            (fun v => decide (v.scopeLevel = 0)) =
          st.vars.filter (fun v => decide (v.scopeLevel = 0)) := by
      rw [List.filter_filter]
      exact List.filter_congr (fun v hv => by
        by_cases h0v : v.scopeLevel = 0 <;> simp [h0v])
    rw [hfilters]

/-- C9: a call statement that resolves to a registered function first tears
every open scope down to level 0 — erasing exactly the variables of scope
level 1 and above, including a calling function's locals — then enters the
callee at scope level exactly 1, with the program counter at the callee's
first body line. -/
theorem c9_call_wipes_scopes_to_level_one
    (st : EngineState) (line name args : String) (f : Func)
    (hline : st.program.get? (st.streamLine - 1) = some line)
    (hstyle : matchStyle line = none)
    (hcom : strHead line ≠ some '#')
    (hig : st.ignoreLine = false)
    (hend : trimC line ≠ "END")
    (hbl : trimC line ≠ "")
    (hcl : trimC line ≠ closeTokOf st.style)
    (hret : matchReturnStmt line = false)
    (hdef : matchFuncDef st.style line = none)
    (hcall : matchFuncCall line = some (name, args))
    (hkw : callKeywords.contains name = false)
    (hf : funcsFind st.functions name = some f)
    (hinv : ∀ v ∈ st.vars, v.scopeLevel ≤ st.scopeLevel)
    (hjump : 1 ≤ f.startingLine + 1 ∧ f.startingLine + 1 ≤ st.program.length) :
    ∃ st2, step st = .next st2 ∧
      st2.scopeLevel = 1 ∧
      st2.programCounter = f.startingLine + 1 ∧
      (∀ v ∈ st2.vars, (v ∈ st.vars ∧ v.scopeLevel = 0) ∨ v.scopeLevel = 1) ∧
      (∀ v ∈ st.vars, v.scopeLevel = 0 → v ∈ st2.vars) := by
  simp only [step, hline, hstyle, if_neg hcom, hig, Bool.false_eq_true, if_false,
    if_neg hend, if_neg hbl, if_neg hcl, hret, hdef, hcall, hkw, hf]
  rw [wipeScopes_spec st.scopeLevel st rfl hinv]
  simp only [incrementScope, Nat.zero_add]
  obtain ⟨vs, hbp, hv1, hv2⟩ := bindParams_vars f.parameters (splitAndTrimArgs args)
    { st with scopeLevel := 1,
              vars := st.vars.filter (fun v => decide (v.scopeLevel = 0)),
              functionDepth := st.functionDepth + 1,
              returnStack := (st.programCounter + 1) :: st.returnStack }
  rw [hbp]
  simp only [jumpToLine]
  rw [if_pos hjump]
  refine ⟨_, rfl, rfl, rfl, ?_, ?_⟩
  · intro v hv
    rcases hv1 v hv with hmem | hs
    · have hmem2 := List.mem_filter.mp hmem
      exact Or.inl ⟨hmem2.1, of_decide_eq_true hmem2.2⟩
    · exact Or.inr hs
  · intro v hv h0
    exact hv2 v (List.mem_filter.mpr ⟨hv, decide_eq_true h0⟩)

/-- Witness for C9: calling `f()` (registered with body starting after line 1)
from line 3 of a four-line listing enters the callee at scope level exactly 1
with the counter on the callee's first body line. -/
theorem c9_call_wipes_scopes_to_level_one_witness :
    ∃ st2, step { mkInit ["func f()", "end", "f()", "END"] [] with
        programCounter := 3
        streamLine := 3
        functions := [⟨"f", [], 1⟩] } = .next st2 ∧
      st2.scopeLevel = 1 ∧
      st2.programCounter = (⟨"f", [], 1⟩ : Func).startingLine + 1 ∧
      (∀ v ∈ st2.vars, (v ∈ ([] : List Variable) ∧ v.scopeLevel = 0) ∨ v.scopeLevel = 1) ∧
      (∀ v ∈ ([] : List Variable), v.scopeLevel = 0 → v ∈ st2.vars) :=
  c9_call_wipes_scopes_to_level_one _ "f()" "f" "" ⟨"f", [], 1⟩ rfl (by decide) (by decide)
    rfl (by decide) (by decide) (by decide) (by decide) (by decide) (by decide) (by decide)
    rfl (by decide) (by decide)

/-- Witness for C10: the identifier `x` with an empty variable store is
substituted by the literal text 0. -/
theorem c10_undeclared_identifier_becomes_zero_witness :
    findAndReplaceVariables "x" [] = "0" :=
  c10_undeclared_identifier_becomes_zero.1 "x" [] (by decide) rfl
